import Mathlib

/-!
Verification of the quiz bot's publication, grading and content-replication
engine (`src/main.py`), as a shallow embedding.  SQLite tables become lists of
rows kept in insertion order (AUTOINCREMENT primary keys are strictly
increasing along each list, so a `SELECT ... ORDER BY id` is a plain filter);
the aiogram handlers become pure functions from a database state, plus the
transient `pending_names` dictionary, to a new state together with the emitted
side effects.  Timestamps are modelled as natural numbers (minutes); opaque
text payloads (titles, question text, Telegram file ids, names) are strings.
-/

namespace KingBot

/-- Attachment kind: the `kind` column, 'photo' or 'voice' or 'audio'. -/
inductive Kind where
  | photo
  | voice
  | audio
deriving DecidableEq

/-- Row of `quizzes`. -/
structure QuizRow where
  id : Nat
  title : String
  created_by : Nat
  created_at : Nat
  is_archived : Bool
deriving DecidableEq

/-- Row of `questions` (legacy media columns omitted: they are migrated and unread). -/
structure QuestionRow where
  id : Nat
  quiz_id : Nat
  text : String
  created_at : Nat
  media_bundle_id : Option Nat
deriving DecidableEq

/-- Row of `options` (the surrogate `id` column is never read by the engine). -/
structure OptionRow where
  question_id : Nat
  option_index : Nat
  text : String
  is_correct : Bool
deriving DecidableEq

/-- Row of `question_attachments` (surrogate id omitted, never read). -/
structure QAttRow where
  question_id : Nat
  kind : Kind
  file_id : String
  position : Nat
deriving DecidableEq

/-- Row of `media_bundles`. -/
structure BundleRow where
  id : Nat
  quiz_id : Nat
  created_at : Nat
deriving DecidableEq

/-- Row of `media_bundle_attachments` (surrogate id omitted, never read). -/
structure BAttRow where
  bundle_id : Nat
  kind : Kind
  file_id : String
  position : Nat
deriving DecidableEq

/-- Row of `responses` (surrogate id omitted; UNIQUE(chat_id,user_id,question_id)). -/
structure ResponseRow where
  chat_id : Nat
  user_id : Nat
  question_id : Nat
  option_index : Nat
  is_correct : Bool
  answered_at : Nat
deriving DecidableEq

/-- Row of `participant_names` (UNIQUE(origin_chat_id,user_id,quiz_id)). -/
structure NameRow where
  origin_chat_id : Nat
  user_id : Nat
  quiz_id : Nat
  name : String
deriving DecidableEq

/-- Row of `user_progress`. -/
structure ProgressRow where
  origin_chat_id : Nat
  user_id : Nat
  quiz_id : Nat
  q_pos : Nat
  started_at : Nat
  finished_at : Option Nat
deriving DecidableEq

/-- Row of `sent_msgs` (the publish records).  `expires_at` is a nullable TEXT
column holding an ISO timestamp: `none` is SQL NULL, `some none` a non-NULL
value that is empty or fails `datetime.fromisoformat`, `some (some t)` a value
parsing to time `t`. -/
structure SentMsgRow where
  id : Nat
  chat_id : Nat
  quiz_id : Nat
  message_id : Nat
  expires_at : Option (Option Nat)
deriving DecidableEq

/-- The persistent store: one list per table (insertion order), plus the next
AUTOINCREMENT value of each table whose primary key the code reads back. -/
structure DB where
  quizzes : List QuizRow
  questions : List QuestionRow
  options : List OptionRow
  question_attachments : List QAttRow
  media_bundles : List BundleRow
  media_bundle_attachments : List BAttRow
  responses : List ResponseRow
  participant_names : List NameRow
  user_progress : List ProgressRow
  sent_msgs : List SentMsgRow
  nextQuizId : Nat
  nextQuestionId : Nat
  nextBundleId : Nat
  nextSentId : Nat
deriving DecidableEq

/-- Value of the OWNER_ID environment variable (its value is irrelevant to
every verified property). -/
def OWNER_ID : Nat := 0

/-- SELECT id,text,media_bundle_id FROM questions WHERE quiz_id=? ORDER BY id
(lists are kept in ascending-id order, so the filter is the ordered result). -/
def questionsOfQuiz (db : DB) (quiz_id : Nat) : List QuestionRow :=
  db.questions.filter (fun q => q.quiz_id == quiz_id)

/-- `get_quiz_question_ids`. -/
def get_quiz_question_ids (db : DB) (quiz_id : Nat) : List Nat :=
  (questionsOfQuiz db quiz_id).map (·.id)

/-- `options_for_question`: SELECT ... WHERE question_id=? ORDER BY option_index. -/
def options_for_question (db : DB) (question_id : Nat) : List OptionRow :=
  db.options.filter (fun o => o.question_id == question_id)

/-- `get_question_atts`: SELECT ... WHERE question_id=? ORDER BY position. -/
def get_question_atts (db : DB) (question_id : Nat) : List QAttRow :=
  db.question_attachments.filter (fun a => a.question_id == question_id)

/-- `get_bundle_atts`: SELECT ... WHERE bundle_id=? ORDER BY position. -/
def get_bundle_atts (db : DB) (bundle_id : Nat) : List BAttRow :=
  db.media_bundle_attachments.filter (fun a => a.bundle_id == bundle_id)

/-- SELECT quiz_id,text FROM questions WHERE id=? (fetchone = first match). -/
def findQuestion (db : DB) (question_id : Nat) : Option QuestionRow :=
  db.questions.find? (fun q => q.id == question_id)

/-- SELECT * FROM quizzes WHERE id=?. -/
def findQuiz (db : DB) (quiz_id : Nat) : Option QuizRow :=
  db.quizzes.find? (fun q => q.id == quiz_id)

/-- SELECT * FROM quizzes WHERE id=? AND is_archived=0. -/
def findQuizActive (db : DB) (quiz_id : Nat) : Option QuizRow :=
  db.quizzes.find? (fun q => q.id == quiz_id && !q.is_archived)

/-- SELECT text,is_correct FROM options WHERE question_id=? AND option_index=?. -/
def findOption (db : DB) (question_id option_index : Nat) : Option OptionRow :=
  db.options.find? (fun o => o.question_id == question_id && o.option_index == option_index)

/-- SELECT ... FROM participant_names WHERE origin_chat_id=? AND user_id=? AND quiz_id=?. -/
def findName (db : DB) (chat_id user_id quiz_id : Nat) : Option NameRow :=
  db.participant_names.find?
    (fun n => n.origin_chat_id == chat_id && n.user_id == user_id && n.quiz_id == quiz_id)

/-- SELECT 1 FROM responses WHERE chat_id=? AND user_id=? AND question_id=?. -/
def hasResponse (db : DB) (chat_id user_id question_id : Nat) : Bool :=
  db.responses.any
    (fun r => r.chat_id == chat_id && r.user_id == user_id && r.question_id == question_id)

/-- ORDER BY id DESC LIMIT 1: the row with the largest primary key. -/
def mostRecent : List SentMsgRow → Option SentMsgRow
  | [] => none
  | r :: rest =>
    match mostRecent rest with
    | none => some r
    | some m => if m.id ≤ r.id then some r else some m

/-- `_quiz_expired`: look up the most recently inserted `sent_msgs` row for
(chat,quiz) whose `expires_at` is not NULL; `none` when there is no such row or
its value is empty/unparsable, otherwise whether `now` is strictly past it. -/
def quiz_expired (db : DB) (chat_id quiz_id now : Nat) : Option Bool :=
  match mostRecent (db.sent_msgs.filter
      (fun r => r.chat_id == chat_id && r.quiz_id == quiz_id && r.expires_at.isSome)) with
  | none => none
  | some row =>
    match row.expires_at with
    | some (some exp) => some (decide (exp < now))
    | _ => none

/-- Expiry computed by the publish duration handlers:
`now + timedelta(hours=hours)`, with time in minutes. -/
def custom_expiry (now hours : Nat) : Nat := now + 60 * hours

/-- Transient process state: the keys of the `pending_names` dictionary,
in insertion order. -/
abbrev Pending := List (Nat × Nat × Nat)

/-- Dictionary write `pending_names[(chat,user,quiz)] = True`: insertion order
keeps the position of an existing key. -/
def insertPending (p : Pending) (k : Nat × Nat × Nat) : Pending :=
  if k ∈ p then p else p ++ [k]

/-- Outbound messages sent to the channel by the grading machine. -/
inductive Sent where
  | namePrompt (chat_id user_id : Nat)
  | finalResult (chat_id : Nat) (name : String) (user_id score total : Nat)
deriving DecidableEq

/-- Reply shown to the tapping user (`cb.answer` popups / rejections). -/
inductive AnsOutcome where
  | notYourQuestion
  | questionNotFound
  | expired
  | needName
  | alreadyAnswered
  | answered (is_correct : Bool)
deriving DecidableEq

/-- Result of one `on_answer` invocation. -/
structure AnsResult where
  db : DB
  pending : Pending
  out : AnsOutcome
  sent : List Sent
deriving DecidableEq

/-- Boolean row predicate of `WHERE chat_id=? AND user_id=? AND question_id IN (...)`. -/
def respMatches (chat_id user_id : Nat) (q_ids : List Nat) (r : ResponseRow) : Bool :=
  r.chat_id == chat_id && r.user_id == user_id && q_ids.contains r.question_id

/-- SELECT COUNT(DISTINCT question_id) FROM responses
WHERE chat_id=? AND user_id=? AND question_id IN q_ids. -/
def answeredCount (db : DB) (chat_id user_id quiz_id : Nat) : Nat :=
  (((db.responses.filter
      (respMatches chat_id user_id (get_quiz_question_ids db quiz_id))).map
        (·.question_id)).dedup).length

/-- SELECT SUM(is_correct) FROM responses
WHERE chat_id=? AND user_id=? AND question_id IN q_ids (is_correct is 0/1). -/
def sumCorrect (db : DB) (chat_id user_id quiz_id : Nat) : Nat :=
  (db.responses.filter
    (fun r => respMatches chat_id user_id (get_quiz_question_ids db quiz_id) r
              && r.is_correct)).length

/-- The `user_progress` upsert in the completion branch of `on_answer`:
UPDATE finished_at on the existing (chat,user,quiz) rows, else INSERT a row
with started_at = finished_at = now. -/
def upsertFinished (ps : List ProgressRow) (chat_id user_id quiz_id now : Nat) :
    List ProgressRow :=
  if ps.any (fun p => p.origin_chat_id == chat_id && p.user_id == user_id
                      && p.quiz_id == quiz_id) then
    ps.map (fun p =>
      if p.origin_chat_id == chat_id && p.user_id == user_id && p.quiz_id == quiz_id then
        { p with finished_at := some now }
      else p)
  else ps ++ [⟨chat_id, user_id, quiz_id, 0, now, some now⟩]

/-- Correctness credited to the tapped option: the chosen option's is_correct
flag, or 0 when no such option row exists. -/
def respCorrect (db : DB) (question_id option_index : Nat) : Bool :=
  ((findOption db question_id option_index).map (·.is_correct)).getD false

/-- INSERT INTO responses(chat_id,user_id,question_id,option_index,is_correct,
answered_at) of one graded answer. -/
def insertResp (db : DB) (chat_id user_id question_id option_index now : Nat) : DB :=
  { db with responses := db.responses ++
      [⟨chat_id, user_id, question_id, option_index,
        respCorrect db question_id option_index, now⟩] }

/-- `on_answer`: the per-user answer state machine.  Gates in source order:
target-user gate, question lookup, session expiry, registration, duplicate
response; then the response insert (correctness from the chosen option, 0 when
the option row is missing) and the completion check. -/
def on_answer (db : DB) (pending : Pending)
    (chat_id user_id question_id option_index target_user_id now : Nat) : AnsResult :=
  if target_user_id ≠ 0 ∧ user_id ≠ target_user_id then
    ⟨db, pending, .notYourQuestion, []⟩
  else
    match findQuestion db question_id with
    | none => ⟨db, pending, .questionNotFound, []⟩
    | some qrow =>
      let quiz_id := qrow.quiz_id
      if quiz_expired db chat_id quiz_id now = some true then
        ⟨db, pending, .expired, []⟩
      else if (findName db chat_id user_id quiz_id).isNone then
        ⟨db, insertPending pending (chat_id, user_id, quiz_id), .needName,
          [.namePrompt chat_id user_id]⟩
      else if hasResponse db chat_id user_id question_id then
        ⟨db, pending, .alreadyAnswered, []⟩
      else
        let is_correct := respCorrect db question_id option_index
        let db1 : DB := insertResp db chat_id user_id question_id option_index now
        let q_ids := get_quiz_question_ids db1 quiz_id
        if answeredCount db1 chat_id user_id quiz_id = q_ids.length then
          let total := sumCorrect db1 chat_id user_id quiz_id
          let db2 : DB :=
            { db1 with user_progress :=
                upsertFinished db1.user_progress chat_id user_id quiz_id now }
          let nm := ((findName db1 chat_id user_id quiz_id).map (·.name)).getD "الطالبة"
          ⟨db2, pending, .answered is_correct,
            [.finalResult chat_id nm user_id total q_ids.length]⟩
        else ⟨db1, pending, .answered is_correct, []⟩

/-- Reply shown to the user tapping the begin control. -/
inductive StartOutcome where
  | expired
  | promptName
  | ack
deriving DecidableEq

/-- `cb_start_quiz`: the begin event.  Reject when the session is expired;
otherwise, when the user has no participant-name row yet, mark the triple
pending-name and prompt; else just acknowledge. -/
def cb_start_quiz (db : DB) (pending : Pending) (chat_id user_id quiz_id now : Nat) :
    Pending × StartOutcome × List Sent :=
  if quiz_expired db chat_id quiz_id now = some true then
    (pending, .expired, [])
  else if (findName db chat_id user_id quiz_id).isNone then
    (insertPending pending (chat_id, user_id, quiz_id), .promptName,
      [.namePrompt chat_id user_id])
  else (pending, .ack, [])

/-- One interactive answer event from a fixed (chat,user): the control data
`ans:question:idx:0` plus the arrival time. -/
structure AnsEvent where
  question : Nat
  idx : Nat
  now : Nat
deriving DecidableEq

/-- Sequential processing of a list of answer events by one (chat,user) pair,
collecting every outbound message. -/
def runAnswers (chat_id user_id : Nat) : DB → Pending → List AnsEvent → DB × List Sent
  | db, _, [] => (db, [])
  | db, pending, e :: rest =>
    let r := on_answer db pending chat_id user_id e.question e.idx 0 e.now
    let res := runAnswers chat_id user_id r.db r.pending rest
    (res.1, r.sent ++ res.2)

/-- Whether an outbound message is the public final-result broadcast. -/
def isFinal : Sent → Bool
  | .finalResult .. => true
  | _ => false

/-- One unit broadcast by a publish pass. -/
inductive PubUnit where
  | head (quiz_id : Nat) (title : String)
  | bundleAtt (bundle_id : Nat) (kind : Kind) (file_id : String) (position : Nat)
  | questionAttFirst (question_id : Nat) (kind : Kind) (file_id : String) (position : Nat)
  | questionAttRest (question_id : Nat) (kind : Kind) (file_id : String) (position : Nat)
  | questionText (question_id : Nat)
deriving DecidableEq

/-- Broadcast of one question: first own attachment carries the caption and the
option controls, the rest follow bare; a question without attachments is sent
as text carrying the controls. -/
def publishQuestionUnits (db : DB) (q : QuestionRow) : List PubUnit :=
  match get_question_atts db q.id with
  | [] => [.questionText q.id]
  | a :: rest =>
    .questionAttFirst q.id a.kind a.file_id a.position ::
      rest.map (fun b => .questionAttRest q.id b.kind b.file_id b.position)

/-- Broadcast of a media bundle: every attachment, in stored (position) order. -/
def publishBundleUnits (db : DB) (bundle_id : Nat) : List PubUnit :=
  (get_bundle_atts db bundle_id).map
    (fun a => .bundleAtt bundle_id a.kind a.file_id a.position)

/-- The question loop of `_do_publish`, threading the `sent_bundles` set. -/
def publishLoop (db : DB) : List QuestionRow → List Nat → List PubUnit
  | [], _ => []
  | q :: rest, sent_bundles =>
    match q.media_bundle_id with
    | some b =>
      if b ∈ sent_bundles then
        publishQuestionUnits db q ++ publishLoop db rest sent_bundles
      else
        publishBundleUnits db b ++ publishQuestionUnits db q
          ++ publishLoop db rest (b :: sent_bundles)
    | none => publishQuestionUnits db q ++ publishLoop db rest sent_bundles

/-- Record one publish record per successfully sent unit, all rows carrying the
pass-wide expiry (sends are modelled as succeeding; a unit that failed after
retry would merely not be recorded). -/
def recordSentMsgs (db : DB) (chat_id quiz_id : Nat) (expires_at : Option (Option Nat))
    (units : List PubUnit) : DB :=
  { db with
    sent_msgs := db.sent_msgs ++
      (List.range units.length).map
        (fun i => ⟨db.nextSentId + i, chat_id, quiz_id, db.nextSentId + i, expires_at⟩),
    nextSentId := db.nextSentId + units.length }

/-- `_do_publish`: reject (False, nothing broadcast, nothing recorded) when the
quiz is missing or archived or has no questions; otherwise broadcast the head
announcement and then every question in ascending id order, resolving shared
bundles once per pass. -/
def do_publish (db : DB) (chat_id quiz_id : Nat) (expires_at : Option (Option Nat)) :
    DB × List PubUnit × Bool :=
  match findQuizActive db quiz_id with
  | none => (db, [], false)
  | some quiz =>
    let qs := questionsOfQuiz db quiz_id
    if qs = [] then (db, [], false)
    else
      let units := .head quiz_id quiz.title :: publishLoop db qs []
      (recordSentMsgs db chat_id quiz_id expires_at units, units, true)

/-- `_copy_bundle`: clone a media bundle (and its attachments, in stored
position order) into `quiz_dst`, memoised in `bundle_map`. -/
def copy_bundle (db : DB) (quiz_dst now bundle_id : Nat) (bundle_map : List (Nat × Nat)) :
    DB × Nat × List (Nat × Nat) :=
  match bundle_map.lookup bundle_id with
  | some nb => (db, nb, bundle_map)
  | none =>
    let new_b := db.nextBundleId
    let atts := get_bundle_atts db bundle_id
    let db' : DB := { db with
      media_bundles := db.media_bundles ++ [⟨new_b, quiz_dst, now⟩],
      media_bundle_attachments := db.media_bundle_attachments ++
        atts.map (fun a => { a with bundle_id := new_b }),
      nextBundleId := new_b + 1 }
    (db', new_b, bundle_map ++ [(bundle_id, new_b)])

/-- `_copy_question_to_quiz`: deep copy one question (text, bundle link,
options, own attachments) into `quiz_dst`, stamping created_at at copy time. -/
def copy_question_to_quiz (db : DB) (qrow : QuestionRow) (quiz_dst now : Nat)
    (bundle_map : List (Nat × Nat)) : DB × Nat × List (Nat × Nat) :=
  let step : DB × Option Nat × List (Nat × Nat) :=
    match qrow.media_bundle_id with
    | some b =>
      let r := copy_bundle db quiz_dst now b bundle_map
      (r.1, some r.2.1, r.2.2)
    | none => (db, none, bundle_map)
  let db1 := step.1
  let new_qid := db1.nextQuestionId
  let opts := options_for_question db1 qrow.id
  let atts := get_question_atts db1 qrow.id
  let db2 : DB := { db1 with
    questions := db1.questions ++ [⟨new_qid, quiz_dst, qrow.text, now, step.2.1⟩],
    options := db1.options ++ opts.map (fun o => { o with question_id := new_qid }),
    question_attachments := db1.question_attachments ++
      atts.map (fun a => { a with question_id := new_qid }),
    nextQuestionId := new_qid + 1 }
  (db2, new_qid, step.2.2)

/-- The copy loop of `merge_quizzes_create_new` over one source quiz's
questions, threading the bundle memo. -/
def copyQuestionList (quiz_dst now : Nat) :
    DB → List QuestionRow → List (Nat × Nat) → DB × List (Nat × Nat)
  | db, [], bundle_map => (db, bundle_map)
  | db, q :: rest, bundle_map =>
    let r := copy_question_to_quiz db q quiz_dst now bundle_map
    copyQuestionList quiz_dst now r.1 rest r.2.2

/-- `merge_quizzes_create_new`: create a fresh quiz titled from both sources,
then deep-copy the questions of `src_id` (ascending id) and of `dst_id`
(ascending id) into it, sharing one bundle memo across the whole call.
`none` models the exception raised (before any write) when either quiz row is
missing. -/
def merge_quizzes_create_new (db : DB) (now src_id dst_id : Nat) : Option (DB × Nat) :=
  match findQuiz db src_id, findQuiz db dst_id with
  | some src, some dst =>
    let new_quiz_id := db.nextQuizId
    let title := "دمج: " ++ src.title ++ " + " ++ dst.title
    let db0 : DB := { db with
      quizzes := db.quizzes ++ [⟨new_quiz_id, title, OWNER_ID, now, false⟩],
      nextQuizId := new_quiz_id + 1 }
    let r1 := copyQuestionList new_quiz_id now db0 (questionsOfQuiz db0 src_id) []
    let r2 := copyQuestionList new_quiz_id now r1.1 (questionsOfQuiz r1.1 dst_id) r1.2
    some (r2.1, new_quiz_id)
  | _, _ => none

/-- `merge_do`: the merge callback; self-merge is rejected before any mutation. -/
def merge_do (db : DB) (now src_id dst_id : Nat) : DB × Option Nat :=
  if src_id = dst_id then (db, none)
  else
    match merge_quizzes_create_new db now src_id dst_id with
    | some r => (r.1, some r.2)
    | none => (db, none)

/-- A database holding a quiz (id 5) with one question (id 7, two options),
a registered participant (chat 10, user 20) and a publish record whose
expiry is `custom_expiry 0 1 = 60`. -/
def dbExpiry : DB where
  quizzes := [⟨5, "t", 0, 0, false⟩]
  questions := [⟨7, 5, "q", 0, none⟩]
  options := [⟨7, 0, "a", true⟩, ⟨7, 1, "b", false⟩]
  question_attachments := []
  media_bundles := []
  media_bundle_attachments := []
  responses := []
  participant_names := [⟨10, 20, 5, "nm"⟩]
  user_progress := []
  sent_msgs := [⟨1, 10, 5, 1, some (some 60)⟩]
  nextQuizId := 6
  nextQuestionId := 8
  nextBundleId := 1
  nextSentId := 2

/-- Like `dbExpiry`, but user 20 already has a response recorded for
question 7. -/
def dbDup : DB :=
  { dbExpiry with responses := [⟨10, 20, 7, 0, true, 0⟩] }

/-- A quiz (id 5) with two questions and a registered participant
(chat 10, user 20), no answers yet. -/
def dbQuiz2 : DB where
  quizzes := [⟨5, "t", 0, 0, false⟩]
  questions := [⟨7, 5, "q7", 0, none⟩, ⟨8, 5, "q8", 0, none⟩]
  options := [⟨7, 0, "a", true⟩, ⟨7, 1, "b", false⟩,
    ⟨8, 0, "c", false⟩, ⟨8, 1, "d", true⟩]
  question_attachments := []
  media_bundles := []
  media_bundle_attachments := []
  responses := []
  participant_names := [⟨10, 20, 5, "nm"⟩]
  user_progress := []
  sent_msgs := []
  nextQuizId := 6
  nextQuestionId := 9
  nextBundleId := 1
  nextSentId := 1

/-- SELECT * FROM media_bundles WHERE quiz_id=?. -/
def bundlesOfQuiz (db : DB) (quiz_id : Nat) : List BundleRow :=
  db.media_bundles.filter (fun b => b.quiz_id == quiz_id)

/-- Bundle `nb` of `dbNew` is a clone of bundle `b` of `dbOld`: the same
attachments (kind, file, position) re-keyed to `nb`. -/
def ClonedB (dbOld dbNew : DB) (b nb : Nat) : Prop :=
  get_bundle_atts dbNew nb =
    (get_bundle_atts dbOld b).map (fun a => { a with bundle_id := nb })

/-- Question `nq` of `dbNew` is a deep copy of `oq` of `dbOld` into quiz
`dst`: same text, created_at stamped at copy time, options and own
attachments copied verbatim, bundle reference redirected through the memo. -/
def CopiedQ (dbOld dbNew : DB) (dst now : Nat) (m : List (Nat × Nat))
    (oq nq : QuestionRow) : Prop :=
  nq.quiz_id = dst ∧ nq.text = oq.text ∧ nq.created_at = now ∧
  (match oq.media_bundle_id with
   | none => nq.media_bundle_id = none
   | some b => ∃ nb, m.lookup b = some nb ∧ nq.media_bundle_id = some nb) ∧
  options_for_question dbNew nq.id =
    (options_for_question dbOld oq.id).map (fun o => { o with question_id := nq.id }) ∧
  get_question_atts dbNew nq.id =
    (get_question_atts dbOld oq.id).map (fun a => { a with question_id := nq.id })

/-- Store well-formedness used by the merge proofs: stored ids sit below their
AUTOINCREMENT counters and question ids ascend in insertion order. -/
def MergeWF (db : DB) : Prop :=
  (∀ qz ∈ db.quizzes, qz.id < db.nextQuizId) ∧
  (∀ q ∈ db.questions, q.id < db.nextQuestionId) ∧
  (∀ q ∈ db.questions, q.quiz_id < db.nextQuizId) ∧
  db.questions.Pairwise (fun a b => a.id < b.id) ∧
  (∀ q ∈ db.questions, ∀ b ∈ q.media_bundle_id, b < db.nextBundleId) ∧
  (∀ o ∈ db.options, o.question_id < db.nextQuestionId) ∧
  (∀ a ∈ db.question_attachments, a.question_id < db.nextQuestionId) ∧
  (∀ b ∈ db.media_bundles, b.quiz_id < db.nextQuizId) ∧
  (∀ b ∈ db.media_bundles, b.id < db.nextBundleId) ∧
  (∀ a ∈ db.media_bundle_attachments, a.bundle_id < db.nextBundleId)

/-- Invariant carried through the copy loop: id bounds, ascending question
ids, and every memo entry a valid clone below the bundle counter. -/
structure MergeInv (db : DB) (m : List (Nat × Nat)) : Prop where
  opt_lt : ∀ o ∈ db.options, o.question_id < db.nextQuestionId
  att_lt : ∀ a ∈ db.question_attachments, a.question_id < db.nextQuestionId
  batt_lt : ∀ a ∈ db.media_bundle_attachments, a.bundle_id < db.nextBundleId
  q_lt : ∀ q ∈ db.questions, q.id < db.nextQuestionId
  qsort : db.questions.Pairwise (fun a b => a.id < b.id)
  m_lt : ∀ p ∈ m, p.2 < db.nextBundleId
  m_keys_lt : ∀ p ∈ m, p.1 < db.nextBundleId
  m_nodup : (m.map Prod.fst).Nodup
  m_cloned : ∀ p ∈ m, ClonedB db db p.1 p.2

/-- The DB grows monotonically through a copy step: frame tables untouched,
each extended table only gains rows keyed at or above the old counter. -/
structure Grows (db db' : DB) : Prop where
  quizzes_eq : db'.quizzes = db.quizzes
  responses_eq : db'.responses = db.responses
  names_eq : db'.participant_names = db.participant_names
  progress_eq : db'.user_progress = db.user_progress
  sent_eq : db'.sent_msgs = db.sent_msgs
  nextQuiz_eq : db'.nextQuizId = db.nextQuizId
  nextSent_eq : db'.nextSentId = db.nextSentId
  nq_le : db.nextQuestionId ≤ db'.nextQuestionId
  nb_le : db.nextBundleId ≤ db'.nextBundleId
  questions_ext : ∃ l, db'.questions = db.questions ++ l ∧
    ∀ x ∈ l, db.nextQuestionId ≤ x.id ∧ x.id < db'.nextQuestionId
  options_ext : ∃ l, db'.options = db.options ++ l ∧
    ∀ x ∈ l, db.nextQuestionId ≤ x.question_id ∧ x.question_id < db'.nextQuestionId
  atts_ext : ∃ l, db'.question_attachments = db.question_attachments ++ l ∧
    ∀ x ∈ l, db.nextQuestionId ≤ x.question_id ∧ x.question_id < db'.nextQuestionId
  batts_ext : ∃ l, db'.media_bundle_attachments = db.media_bundle_attachments ++ l ∧
    ∀ x ∈ l, db.nextBundleId ≤ x.bundle_id ∧ x.bundle_id < db'.nextBundleId

/-- Everything `merge_quizzes_create_new` guarantees about its result store
`dbF` and final bundle memo `m'`, relative to the original store `db`:
pure-insert frame per table, the new quiz's questions as positional deep
copies of src's then dst's questions, and the memoized once-per-bundle
cloning. -/
structure MergeFacts (db dbF : DB) (now src_id dst_id : Nat)
    (srcq dstq : QuizRow) (m' : List (Nat × Nat)) : Prop where
  quizzes_eq : dbF.quizzes = db.quizzes ++
    [⟨db.nextQuizId, "دمج: " ++ srcq.title ++ " + " ++ dstq.title, OWNER_ID, now, false⟩]
  responses_eq : dbF.responses = db.responses
  names_eq : dbF.participant_names = db.participant_names
  progress_eq : dbF.user_progress = db.user_progress
  sent_eq : dbF.sent_msgs = db.sent_msgs
  questions_ext : ∃ qadd, dbF.questions = db.questions ++ qadd ∧
    ∀ x ∈ qadd, x.quiz_id = db.nextQuizId
  options_ext : ∃ oadd, dbF.options = db.options ++ oadd ∧
    ∀ x ∈ oadd, db.nextQuestionId ≤ x.question_id
  atts_ext : ∃ aadd, dbF.question_attachments = db.question_attachments ++ aadd ∧
    ∀ x ∈ aadd, db.nextQuestionId ≤ x.question_id
  bundles_eq : dbF.media_bundles = db.media_bundles ++
    m'.map (fun p => (⟨p.2, db.nextQuizId, now⟩ : BundleRow))
  batts_ext : ∃ tadd, dbF.media_bundle_attachments = db.media_bundle_attachments ++ tadd ∧
    ∀ x ∈ tadd, db.nextBundleId ≤ x.bundle_id
  new_questions : ∃ newSrcQs newDstQs,
    questionsOfQuiz dbF db.nextQuizId = newSrcQs ++ newDstQs ∧
    List.Forall₂ (CopiedQ db dbF db.nextQuizId now m') (questionsOfQuiz db src_id) newSrcQs ∧
    List.Forall₂ (CopiedQ db dbF db.nextQuizId now m') (questionsOfQuiz db dst_id) newDstQs
  memo_nodup : (m'.map Prod.fst).Nodup
  memo_spec : ∀ p ∈ m',
    p.1 ∈ (questionsOfQuiz db src_id ++ questionsOfQuiz db dst_id).filterMap
      (fun q => q.media_bundle_id) ∧
    db.nextBundleId ≤ p.2 ∧ ClonedB db dbF p.1 p.2
  new_bundles : bundlesOfQuiz dbF db.nextQuizId =
    m'.map (fun p => (⟨p.2, db.nextQuizId, now⟩ : BundleRow))
  opts_stable : ∀ k, k < db.nextQuestionId →
    options_for_question dbF k = options_for_question db k
  qatts_stable : ∀ k, k < db.nextQuestionId →
    get_question_atts dbF k = get_question_atts db k
  batts_stable : ∀ k, k < db.nextBundleId →
    get_bundle_atts dbF k = get_bundle_atts db k
  other_questions : ∀ z, z ≠ db.nextQuizId → questionsOfQuiz dbF z = questionsOfQuiz db z
  other_bundles : ∀ z, z ≠ db.nextQuizId → bundlesOfQuiz dbF z = bundlesOfQuiz db z

/-- Two quizzes to merge: quiz 1 has two questions sharing bundle 1 (two
attachments) and one own attachment on question 1; quiz 2 has one question. -/
def dbMerge : DB where
  quizzes := [⟨1, "A", 0, 0, false⟩, ⟨2, "B", 0, 0, false⟩]
  questions := [⟨1, 1, "a1", 0, some 1⟩, ⟨2, 1, "a2", 0, some 1⟩, ⟨3, 2, "b1", 0, none⟩]
  options := [⟨1, 0, "o1", true⟩, ⟨1, 1, "o2", false⟩, ⟨2, 0, "o3", true⟩, ⟨3, 0, "o4", true⟩]
  question_attachments := [⟨1, .photo, "qa1", 0⟩]
  media_bundles := [⟨1, 1, 0⟩]
  media_bundle_attachments := [⟨1, .photo, "f1", 0⟩, ⟨1, .voice, "f2", 1⟩]
  responses := []
  participant_names := []
  user_progress := []
  sent_msgs := []
  nextQuizId := 3
  nextQuestionId := 4
  nextBundleId := 2
  nextSentId := 1

/-- The UNIQUE(chat_id,user_id,question_id) invariant of `responses`. -/
def UniqueResponses (rs : List ResponseRow) : Prop :=
  rs.Pairwise (fun a b =>
    ¬(a.chat_id = b.chat_id ∧ a.user_id = b.user_id ∧ a.question_id = b.question_id))

/-- Like `dbExpiry`, but with no participant row registered yet. -/
def dbNoName : DB :=
  { dbExpiry with participant_names := [] }

/-- Like `dbExpiry`, but the quiz has no questions. -/
def dbNoQuestions : DB :=
  { dbExpiry with questions := [] }

/-- Whether a broadcast unit is an attachment of bundle `b`. -/
def isBundleAttOf (b : Nat) : PubUnit → Bool
  | .bundleAtt b' _ _ _ => b' == b
  | _ => false

/-- A quiz (id 5) with three questions: 7 and 8 share media bundle 3 (two
attachments), 9 has no bundle. -/
def dbBundle : DB where
  quizzes := [⟨5, "t", 0, 0, false⟩]
  questions := [⟨7, 5, "q7", 0, some 3⟩, ⟨8, 5, "q8", 0, some 3⟩, ⟨9, 5, "q9", 0, none⟩]
  options := []
  question_attachments := []
  media_bundles := [⟨3, 5, 0⟩]
  media_bundle_attachments := [⟨3, .photo, "f1", 0⟩, ⟨3, .voice, "f2", 1⟩]
  responses := []
  participant_names := []
  user_progress := []
  sent_msgs := []
  nextQuizId := 6
  nextQuestionId := 10
  nextBundleId := 4
  nextSentId := 1

end KingBot

namespace KingBot

/-- Elements of a list whose mapped keys are distinct are determined by their
key. -/
lemma inj_of_nodup_map {α β : Type} {l : List α} {f : α → β}
    (h : (l.map f).Nodup) : ∀ a ∈ l, ∀ b ∈ l, f a = f b → a = b := by
  induction l with
  | nil => intro a ha; exact absurd ha (List.not_mem_nil a)
  | cons x xs ih =>
    intro a ha b hb hfab
    simp only [List.map_cons, List.nodup_cons] at h
    rcases List.mem_cons.mp ha with rfl | ha' <;>
      rcases List.mem_cons.mp hb with rfl | hb'
    · rfl
    · exact absurd (hfab ▸ List.mem_map_of_mem f hb') h.1
    · exact absurd (hfab ▸ List.mem_map_of_mem f ha') h.1
    · exact ih h.2 a ha' b hb' hfab

lemma mostRecent_eq_none {l : List SentMsgRow} : mostRecent l = none ↔ l = [] := by
  cases l with
  | nil => simp [mostRecent]
  | cons r rest =>
    simp only [mostRecent]
    constructor
    · intro h
      cases hr : mostRecent rest with
      | none => rw [hr] at h; exact absurd h (by simp)
      | some m => rw [hr] at h; by_cases hle : m.id ≤ r.id <;> simp [hle] at h
    · intro h; exact absurd h (by simp)

lemma mostRecent_mem {l : List SentMsgRow} :
    ∀ {m : SentMsgRow}, mostRecent l = some m → m ∈ l := by
  induction l with
  | nil => intro m h; simp [mostRecent] at h
  | cons r rest ih =>
    intro m h
    simp only [mostRecent] at h
    cases hr : mostRecent rest with
    | none =>
      rw [hr] at h
      simp only [Option.some.injEq] at h
      exact h ▸ List.mem_cons_self r rest
    | some m' =>
      simp only [hr] at h
      by_cases hle : m'.id ≤ r.id
      · rw [if_pos hle] at h
        simp only [Option.some.injEq] at h
        exact h ▸ List.mem_cons_self r rest
      · rw [if_neg hle] at h
        simp only [Option.some.injEq] at h
        exact List.mem_cons_of_mem r (ih (h ▸ hr))

lemma mostRecent_max {l : List SentMsgRow} :
    ∀ {m : SentMsgRow}, mostRecent l = some m → ∀ r ∈ l, r.id ≤ m.id := by
  induction l with
  | nil => intro m h; simp [mostRecent] at h
  | cons x rest ih =>
    intro m h r hr
    simp only [mostRecent] at h
    cases hrest : mostRecent rest with
    | none =>
      rw [hrest] at h
      simp only [Option.some.injEq] at h
      rcases List.mem_cons.mp hr with rfl | hr'
      · exact h ▸ Nat.le_refl _
      · exact absurd (mostRecent_eq_none.mp hrest ▸ hr') (List.not_mem_nil r)
    | some m' =>
      simp only [hrest] at h
      by_cases hle : m'.id ≤ x.id
      · rw [if_pos hle] at h
        simp only [Option.some.injEq] at h
        rcases List.mem_cons.mp hr with rfl | hr'
        · exact h ▸ Nat.le_refl _
        · exact h ▸ Nat.le_trans (ih hrest r hr') hle
      · rw [if_neg hle] at h
        simp only [Option.some.injEq] at h
        rcases List.mem_cons.mp hr with rfl | hr'
        · exact h ▸ Nat.le_of_lt (Nat.lt_of_not_le hle)
        · exact ih (h ▸ hrest) r hr'

/-- The membership condition of the row set scanned by `_quiz_expired`. -/
lemma mem_expiryFilter {db : DB} {c z : Nat} {r : SentMsgRow} :
    r ∈ db.sent_msgs.filter
        (fun r => r.chat_id == c && r.quiz_id == z && r.expires_at.isSome) ↔
      r ∈ db.sent_msgs ∧ r.chat_id = c ∧ r.quiz_id = z ∧ r.expires_at ≠ none := by
  simp [List.mem_filter, Option.isSome_iff_ne_none, and_assoc]

/-- Characterisation of `_quiz_expired` returning `True`: there is a publish
record for (chat,quiz) with a non-null expiry, the most recently inserted such
record parses to a time `t`, and `now > t`. -/
lemma quiz_expired_true_iff {db : DB} {c z now : Nat}
    (hnd : (db.sent_msgs.map (·.id)).Nodup) :
    quiz_expired db c z now = some true ↔
      ∃ r ∈ db.sent_msgs, r.chat_id = c ∧ r.quiz_id = z ∧
        (∃ t, r.expires_at = some (some t) ∧ t < now) ∧
        (∀ r' ∈ db.sent_msgs, r'.chat_id = c → r'.quiz_id = z →
          r'.expires_at ≠ none → r'.id ≤ r.id) := by
  unfold quiz_expired
  constructor
  · intro h
    cases hm : mostRecent (db.sent_msgs.filter
        (fun r => r.chat_id == c && r.quiz_id == z && r.expires_at.isSome)) with
    | none => rw [hm] at h; exact absurd h (by simp)
    | some m =>
      simp only [hm] at h
      have hmem := mem_expiryFilter.mp (mostRecent_mem hm)
      refine ⟨m, hmem.1, hmem.2.1, hmem.2.2.1, ?_, ?_⟩
      · cases he : m.expires_at with
        | none => exact absurd he hmem.2.2.2
        | some v =>
          cases v with
          | none => simp [he] at h
          | some t =>
            simp only [he, Option.some.injEq, decide_eq_true_eq] at h
            exact ⟨t, rfl, h⟩
      · intro r' hr' hc hz hne
        exact mostRecent_max hm r' (mem_expiryFilter.mpr ⟨hr', hc, hz, hne⟩)
  · rintro ⟨r, hr, hc, hz, ⟨t, he, ht⟩, hmax⟩
    have hrf : r ∈ db.sent_msgs.filter
        (fun r => r.chat_id == c && r.quiz_id == z && r.expires_at.isSome) :=
      mem_expiryFilter.mpr ⟨hr, hc, hz, by simp [he]⟩
    cases hm : mostRecent (db.sent_msgs.filter
        (fun r => r.chat_id == c && r.quiz_id == z && r.expires_at.isSome)) with
    | none =>
      rw [mostRecent_eq_none.mp hm] at hrf
      exact absurd hrf (List.not_mem_nil r)
    | some m =>
      have hmmem := mem_expiryFilter.mp (mostRecent_mem hm)
      have h1 : r.id ≤ m.id := mostRecent_max hm r hrf
      have h2 : m.id ≤ r.id := hmax m hmmem.1 hmmem.2.1 hmmem.2.2.1 hmmem.2.2.2
      have hmr : m = r :=
        inj_of_nodup_map hnd m hmmem.1 r hr (Nat.le_antisymm h2 h1)
      simp only [hm, hmr, he]
      simp [ht]

end KingBot

namespace KingBot

/-- C3: a (channel,quiz) session evaluates as expired (`True`) if and only if
a publish record for it with a non-null expiry exists, the most recently
inserted such record parses to a time `t`, and `now > t`; absence of any such
record, or a null/unparsable expiry, never evaluates to expired.  Moreover a
quiz whose latest record carries a custom 1-hour expiry accepts answers at
+59 minutes and rejects them as expired at +61 minutes. -/
theorem C3_session_expiry :
    (∀ (db : DB) (c z now : Nat), (db.sent_msgs.map (·.id)).Nodup →
      (quiz_expired db c z now = some true ↔
        ∃ r ∈ db.sent_msgs, r.chat_id = c ∧ r.quiz_id = z ∧
          (∃ t, r.expires_at = some (some t) ∧ t < now) ∧
          (∀ r' ∈ db.sent_msgs, r'.chat_id = c → r'.quiz_id = z →
            r'.expires_at ≠ none → r'.id ≤ r.id))) ∧
    (∀ (db : DB) (pending : Pending) (c u z q idx pub : Nat)
        (qrow : QuestionRow) (r : SentMsgRow),
      (db.sent_msgs.map (·.id)).Nodup →
      r ∈ db.sent_msgs → r.chat_id = c → r.quiz_id = z →
      r.expires_at = some (some (custom_expiry pub 1)) →
      (∀ r' ∈ db.sent_msgs, r'.chat_id = c → r'.quiz_id = z →
        r'.expires_at ≠ none → r'.id ≤ r.id) →
      findQuestion db q = some qrow → qrow.quiz_id = z →
      (findName db c u z).isSome = true →
      hasResponse db c u q = false →
      (∃ b, (on_answer db pending c u q idx 0 (pub + 59)).out = AnsOutcome.answered b) ∧
      (on_answer db pending c u q idx 0 (pub + 61)).out = AnsOutcome.expired) := by
  constructor
  · intro db c z now hnd
    exact quiz_expired_true_iff hnd
  · intro db pending c u z q idx pub qrow r hnd hr hc hz he hmax hfind hq hname hnr
    have hexp61 : quiz_expired db c z (pub + 61) = some true :=
      (quiz_expired_true_iff hnd).mpr
        ⟨r, hr, hc, hz, ⟨custom_expiry pub 1, he, by unfold custom_expiry; omega⟩, hmax⟩
    have hexp59 : ¬ quiz_expired db c z (pub + 59) = some true := by
      intro hcon
      obtain ⟨r2, hr2, hc2, hz2, ⟨t2, he2, ht2⟩, hmax2⟩ :=
        (quiz_expired_true_iff hnd).mp hcon
      have h1 : r2.id ≤ r.id := hmax r2 hr2 hc2 hz2 (by simp [he2])
      have h2 : r.id ≤ r2.id := hmax2 r hr hc hz (by simp [he])
      have hrr : r = r2 := inj_of_nodup_map hnd r hr r2 hr2 (Nat.le_antisymm h2 h1)
      rw [← hrr, he] at he2
      simp only [Option.some.injEq] at he2
      rw [← he2] at ht2
      unfold custom_expiry at ht2
      omega
    have hnn : ¬ ((findName db c u z).isNone = true) := by
      rw [Option.isNone_iff_eq_none]
      intro hfn
      rw [hfn] at hname
      simp at hname
    constructor
    · simp only [on_answer]
      rw [if_neg (by simp)]
      simp only [hfind, hq]
      rw [if_neg hexp59, if_neg hnn, if_neg (by simp [hnr])]
      split
      · exact ⟨_, rfl⟩
      · exact ⟨_, rfl⟩
    · simp only [on_answer]
      rw [if_neg (by simp)]
      simp only [hfind, hq]
      rw [if_pos hexp61]

/-- Witness for C3 at a concrete store: one publish record with a 1-hour
custom expiry; the answer at +59 minutes is graded, the one at +61 rejected. -/
theorem C3_session_expiry_witness :
    (∃ b, (on_answer dbExpiry [] 10 20 7 0 0 (0 + 59)).out = AnsOutcome.answered b) ∧
    (on_answer dbExpiry [] 10 20 7 0 0 (0 + 61)).out = AnsOutcome.expired :=
  C3_session_expiry.2 dbExpiry [] 10 20 5 7 0 0 ⟨7, 5, "q", 0, none⟩
    ⟨1, 10, 5, 1, some (some 60)⟩ (by decide) (by decide) rfl rfl (by decide)
    (by decide) rfl rfl (by decide) rfl

end KingBot

namespace KingBot

/-- The grading machine never touches the quiz graph, the participant table or
the publish records. -/
lemma on_answer_frame (db : DB) (pending : Pending) (c u q idx tgt now : Nat) :
    (on_answer db pending c u q idx tgt now).db.questions = db.questions ∧
    (on_answer db pending c u q idx tgt now).db.participant_names = db.participant_names ∧
    (on_answer db pending c u q idx tgt now).db.sent_msgs = db.sent_msgs ∧
    (on_answer db pending c u q idx tgt now).db.options = db.options := by
  simp only [on_answer]
  repeat' split
  all_goals exact ⟨rfl, rfl, rfl, rfl⟩

/-- The grading machine only ever appends to `responses`. -/
lemma on_answer_resp_mono (db : DB) (pending : Pending) (c u q idx tgt now : Nat) :
    ∃ extra, (on_answer db pending c u q idx tgt now).db.responses =
      db.responses ++ extra := by
  simp only [on_answer]
  repeat' split
  all_goals first
    | exact ⟨[], (List.append_nil _).symm⟩
    | exact ⟨[_], rfl⟩

/-- Either an answer step leaves `responses` unchanged, or no response existed
for (chat,user,question) and exactly one new row for that triple is appended. -/
lemma on_answer_resp_cases (db : DB) (pending : Pending) (c u q idx tgt now : Nat) :
    (on_answer db pending c u q idx tgt now).db.responses = db.responses ∨
    (hasResponse db c u q = false ∧ ∃ ic,
      (on_answer db pending c u q idx tgt now).db.responses =
        db.responses ++ [⟨c, u, q, idx, ic, now⟩]) := by
  simp only [on_answer]
  repeat' split
  all_goals first
    | exact Or.inl rfl
    | exact Or.inr ⟨by simpa using (by assumption : ¬(hasResponse db c u q = true)),
        _, rfl⟩

/-- C1: when a response already exists for (channel,user,question), the
response table never changes (no overwrite, no insert); when the preceding
gates pass (target, question lookup, expiry, registration) the event is
rejected exactly as "already answered" with no state change at all; and one
answer step preserves the at-most-one-response-per-triple invariant. -/
theorem C1_duplicate_answer_idempotent :
    (∀ (db : DB) (pending : Pending) (c u q idx tgt now : Nat),
      hasResponse db c u q = true →
      (on_answer db pending c u q idx tgt now).db.responses = db.responses ∧
      (∀ qrow, findQuestion db q = some qrow →
        (tgt = 0 ∨ u = tgt) →
        quiz_expired db c qrow.quiz_id now ≠ some true →
        (findName db c u qrow.quiz_id).isSome = true →
        on_answer db pending c u q idx tgt now = ⟨db, pending, .alreadyAnswered, []⟩)) ∧
    (∀ (db : DB) (pending : Pending) (c u q idx tgt now : Nat),
      UniqueResponses db.responses →
      UniqueResponses (on_answer db pending c u q idx tgt now).db.responses) := by
  constructor
  · intro db pending c u q idx tgt now hprev
    constructor
    · rcases on_answer_resp_cases db pending c u q idx tgt now with h | ⟨hno, _⟩
      · exact h
      · rw [hprev] at hno; exact absurd hno (by simp)
    · intro qrow hfq htgt hnexp hnm
      have hnn : ¬ ((findName db c u qrow.quiz_id).isNone = true) := by
        rw [Option.isNone_iff_eq_none]
        intro hfn
        rw [hfn] at hnm
        simp at hnm
      have htgt' : ¬(tgt ≠ 0 ∧ u ≠ tgt) := by
        rintro ⟨h1, h2⟩
        rcases htgt with rfl | rfl
        · exact h1 rfl
        · exact h2 rfl
      simp only [on_answer]
      rw [if_neg htgt']
      simp only [hfq]
      rw [if_neg hnexp, if_neg hnn, if_pos hprev]
  · intro db pending c u q idx tgt now huniq
    rcases on_answer_resp_cases db pending c u q idx tgt now with h | ⟨hno, ic, h⟩
    · rw [h]; exact huniq
    · rw [h]
      refine List.pairwise_append.mpr ⟨huniq, List.pairwise_singleton _ _, ?_⟩
      intro a ha b hb
      rw [List.mem_singleton] at hb
      subst hb
      rintro ⟨e1, e2, e3⟩
      have : hasResponse db c u q = true := by
        unfold hasResponse
        rw [List.any_eq_true]
        exact ⟨a, ha, by simp [e1, e2, e3]⟩
      rw [hno] at this
      exact absurd this (by simp)

/-- Witness for C1 at a concrete store: the second tap on question 7 is a
no-op rejection. -/
theorem C1_duplicate_answer_idempotent_witness :
    (on_answer dbDup [] 10 20 7 1 0 10).db.responses = dbDup.responses ∧
    on_answer dbDup [] 10 20 7 1 0 10 = ⟨dbDup, [], .alreadyAnswered, []⟩ ∧
    UniqueResponses (on_answer dbDup [] 10 20 7 1 0 10).db.responses := by
  have h := C1_duplicate_answer_idempotent.1 dbDup [] 10 20 7 1 0 10 (by decide)
  have h2 := C1_duplicate_answer_idempotent.2 dbDup [] 10 20 7 1 0 10
    (by unfold UniqueResponses; decide)
  exact ⟨h.1, h.2 ⟨7, 5, "q", 0, none⟩ rfl (Or.inl rfl) (by decide) rfl, h2⟩

end KingBot

namespace KingBot

lemma mem_insertPending_self (p : Pending) (k : Nat × Nat × Nat) :
    k ∈ insertPending p k := by
  unfold insertPending
  split
  · assumption
  · simp

/-- Counterexample to C6 as stated: a begin event on a non-expired session by
a user who already has a participant row is merely acknowledged — the triple
is not marked pending-name and no name prompt is sent. -/
theorem C6_counterexample :
    quiz_expired dbExpiry 10 5 10 ≠ some true ∧
    cb_start_quiz dbExpiry [] 10 20 5 10 = ([], .ack, []) ∧
    ¬((10, 20, 5) ∈ (cb_start_quiz dbExpiry [] 10 20 5 10).1) := by decide

/-- C6 (amended): a begin event on a non-expired session by a user with no
participant row for (channel,quiz) marks the triple pending-name and prompts
for a display name; a user who already has a participant row is acknowledged
without marking. -/
theorem C6_begin_event_pending_name :
    (∀ (db : DB) (pending : Pending) (c u z now : Nat),
      quiz_expired db c z now ≠ some true →
      findName db c u z = none →
      cb_start_quiz db pending c u z now =
        (insertPending pending (c, u, z), .promptName, [.namePrompt c u]) ∧
      (c, u, z) ∈ (cb_start_quiz db pending c u z now).1) ∧
    (∀ (db : DB) (pending : Pending) (c u z now : Nat) (row : NameRow),
      quiz_expired db c z now ≠ some true →
      findName db c u z = some row →
      cb_start_quiz db pending c u z now = (pending, .ack, [])) := by
  constructor
  · intro db pending c u z now hnexp hnoname
    have hnone : (findName db c u z).isNone = true := by
      rw [Option.isNone_iff_eq_none]; exact hnoname
    constructor
    · unfold cb_start_quiz
      rw [if_neg hnexp, if_pos hnone]
    · unfold cb_start_quiz
      rw [if_neg hnexp, if_pos hnone]
      exact mem_insertPending_self pending (c, u, z)
  · intro db pending c u z now row hnexp hname
    have hnone : ¬((findName db c u z).isNone = true) := by
      rw [Option.isNone_iff_eq_none, hname]
      simp
    unfold cb_start_quiz
    rw [if_neg hnexp, if_neg hnone]

/-- Witness for the amended C6 at a concrete store with no registered name. -/
theorem C6_begin_event_pending_name_witness :
    cb_start_quiz dbNoName [] 10 20 5 10 =
      (insertPending [] (10, 20, 5), .promptName, [.namePrompt 10 20]) ∧
    (10, 20, 5) ∈ (cb_start_quiz dbNoName [] 10 20 5 10).1 :=
  C6_begin_event_pending_name.1 dbNoName [] 10 20 5 10 (by decide) (by decide)

/-- Counterexample to C7 as stated: an answer event whose option index does
not resolve (question 7 has options 0 and 1 only; index 5 is tapped) is NOT
aborted as not-found: a new Response row is inserted. -/
theorem C7_counterexample :
    findOption dbExpiry 7 5 = none ∧
    (on_answer dbExpiry [] 10 20 7 5 0 10).db.responses ≠ dbExpiry.responses ∧
    (on_answer dbExpiry [] 10 20 7 5 0 10).out ≠ AnsOutcome.questionNotFound := by
  decide

/-- C7 (amended): an answer event whose questionId resolves to no Question row
is aborted as not-found with no state mutated; but a missing Option row does
not abort: when the question exists and the other gates pass, a Response with
isCorrect = 0 is inserted and the event is graded as an incorrect answer. -/
theorem C7_option_not_found_behaviour :
    (∀ (db : DB) (pending : Pending) (c u q idx tgt now : Nat),
      ¬(tgt ≠ 0 ∧ u ≠ tgt) →
      findQuestion db q = none →
      on_answer db pending c u q idx tgt now = ⟨db, pending, .questionNotFound, []⟩) ∧
    (∀ (db : DB) (pending : Pending) (c u q idx tgt now : Nat) (qrow : QuestionRow),
      ¬(tgt ≠ 0 ∧ u ≠ tgt) →
      findQuestion db q = some qrow →
      quiz_expired db c qrow.quiz_id now ≠ some true →
      (findName db c u qrow.quiz_id).isSome = true →
      hasResponse db c u q = false →
      findOption db q idx = none →
      (on_answer db pending c u q idx tgt now).db.responses =
        db.responses ++ [⟨c, u, q, idx, false, now⟩] ∧
      (on_answer db pending c u q idx tgt now).out = AnsOutcome.answered false) := by
  constructor
  · intro db pending c u q idx tgt now htgt hfq
    simp only [on_answer]
    rw [if_neg htgt]
    simp only [hfq]
  · intro db pending c u q idx tgt now qrow htgt hfq hnexp hnm hnr hopt
    have hnn : ¬ ((findName db c u qrow.quiz_id).isNone = true) := by
      rw [Option.isNone_iff_eq_none]
      intro hfn
      rw [hfn] at hnm
      simp at hnm
    simp only [on_answer]
    rw [if_neg htgt]
    simp only [hfq]
    rw [if_neg hnexp, if_neg hnn, if_neg (by simp [hnr])]
    simp only [respCorrect, insertResp, hopt, Option.map_none', Option.getD_none]
    split
    · exact ⟨rfl, rfl⟩
    · exact ⟨rfl, rfl⟩

/-- Witness for the amended C7 at the concrete store of the counterexample. -/
theorem C7_option_not_found_behaviour_witness :
    (on_answer dbExpiry [] 10 20 7 5 0 10).db.responses =
      dbExpiry.responses ++ [⟨10, 20, 7, 5, false, 10⟩] ∧
    (on_answer dbExpiry [] 10 20 7 5 0 10).out = AnsOutcome.answered false :=
  C7_option_not_found_behaviour.2 dbExpiry [] 10 20 7 5 0 10 ⟨7, 5, "q", 0, none⟩
    (by decide) rfl (by decide) rfl rfl rfl

end KingBot

namespace KingBot

/-- C8: a publish over a missing or archived quiz, or over a quiz with zero
questions, is rejected with no side effects: nothing broadcast, nothing
recorded, the store untouched.  (A quiz all of whose rows are archived is
invisible to the publish lookup.) -/
theorem C8_publish_rejection :
    (∀ (db : DB) (chat z : Nat) (exp : Option (Option Nat)),
      (findQuizActive db z = none ∨ questionsOfQuiz db z = []) →
      do_publish db chat z exp = (db, [], false)) ∧
    (∀ (db : DB) (z : Nat),
      (∀ qz ∈ db.quizzes, qz.id = z → qz.is_archived = true) →
      findQuizActive db z = none) := by
  constructor
  · intro db chat z exp h
    unfold do_publish
    rcases h with h | h
    · simp only [h]
    · cases hfq : findQuizActive db z with
      | none => rfl
      | some quiz =>
        simp only [hfq]
        rw [if_pos h]
  · intro db z harch
    unfold findQuizActive
    rw [List.find?_eq_none]
    intro qz hmem
    simp only [Bool.and_eq_true, beq_iff_eq, Bool.not_eq_true']
    rintro ⟨rfl, hb⟩
    rw [harch qz hmem rfl] at hb
    exact absurd hb (by simp)

/-- Witness for C8 at a concrete store: publishing quiz 5, which has no
questions, is a no-op failure. -/
theorem C8_publish_rejection_witness :
    do_publish dbNoQuestions 10 5 none = (dbNoQuestions, [], false) :=
  C8_publish_rejection.1 dbNoQuestions 10 5 none (Or.inr (by decide))

/-- C9: a self-merge request is rejected before any mutation: the store is
returned unchanged (in particular no quiz, question, option, attachment or
bundle row is created) and no new quiz id is produced. -/
theorem C9_self_merge_rejected (db : DB) (now z : Nat) :
    merge_do db now z z = (db, none) ∧
    (merge_do db now z z).1.quizzes = db.quizzes ∧
    (merge_do db now z z).1.questions = db.questions ∧
    (merge_do db now z z).1.options = db.options ∧
    (merge_do db now z z).1.question_attachments = db.question_attachments ∧
    (merge_do db now z z).1.media_bundles = db.media_bundles ∧
    (merge_do db now z z).1.media_bundle_attachments = db.media_bundle_attachments := by
  have h : merge_do db now z z = (db, none) := by
    unfold merge_do
    rw [if_pos rfl]
  exact ⟨h, by rw [h], by rw [h], by rw [h], by rw [h], by rw [h], by rw [h]⟩

lemma qunits_no_batt (db : DB) (q : QuestionRow) (b : Nat) :
    ∀ x ∈ publishQuestionUnits db q, isBundleAttOf b x = false := by
  intro x hx
  unfold publishQuestionUnits at hx
  cases h : get_question_atts db q.id with
  | nil =>
    rw [h] at hx
    rw [List.mem_singleton] at hx
    subst hx
    rfl
  | cons a rest =>
    rw [h] at hx
    rcases List.mem_cons.mp hx with rfl | hx'
    · rfl
    · obtain ⟨y, _, rfl⟩ := List.mem_map.mp hx'
      rfl

lemma bunits_no_batt_of_ne (db : DB) {b b' : Nat} (hne : b' ≠ b) :
    ∀ x ∈ publishBundleUnits db b', isBundleAttOf b x = false := by
  intro x hx
  obtain ⟨a, _, rfl⟩ := List.mem_map.mp hx
  simp [isBundleAttOf, hne]

/-- Once a bundle is in the sent set, the rest of the pass never re-broadcasts
its attachments. -/
lemma publishLoop_no_batt {db : DB} {b : Nat} :
    ∀ (qs : List QuestionRow) (sent : List Nat), b ∈ sent →
      ∀ x ∈ publishLoop db qs sent, isBundleAttOf b x = false := by
  intro qs
  induction qs with
  | nil =>
    intro sent _ x hx
    simp [publishLoop] at hx
  | cons q rest ih =>
    intro sent hb x hx
    simp only [publishLoop] at hx
    cases hq : q.media_bundle_id with
    | none =>
      rw [hq] at hx
      rcases List.mem_append.mp hx with h | h
      · exact qunits_no_batt db q b x h
      · exact ih sent hb x h
    | some b' =>
      simp only [hq] at hx
      by_cases hmem : b' ∈ sent
      · rw [if_pos hmem] at hx
        rcases List.mem_append.mp hx with h | h
        · exact qunits_no_batt db q b x h
        · exact ih sent hb x h
      · rw [if_neg hmem] at hx
        have hne : b' ≠ b := fun he => hmem (he ▸ hb)
        rcases List.mem_append.mp hx with h | h
        · rcases List.mem_append.mp h with h' | h'
          · exact bunits_no_batt_of_ne db hne x h'
          · exact qunits_no_batt db q b x h'
        · exact ih (b' :: sent) (List.mem_cons_of_mem b' hb) x h

/-- The question loop emits the attachments of a not-yet-sent bundle exactly
once, immediately before the first question that references it. -/
lemma publishLoop_bundle_once {db : DB} {b : Nat} :
    ∀ (qs : List QuestionRow) (sent : List Nat), b ∉ sent →
      ∀ q0, qs.find? (fun q => q.media_bundle_id == some b) = some q0 →
      ∃ pre post,
        publishLoop db qs sent =
          pre ++ (publishBundleUnits db b ++ publishQuestionUnits db q0) ++ post ∧
        (∀ x ∈ pre, isBundleAttOf b x = false) ∧
        (∀ x ∈ post, isBundleAttOf b x = false) := by
  intro qs
  induction qs with
  | nil =>
    intro sent _ q0 hf
    simp at hf
  | cons q rest ih =>
    intro sent hb q0 hf
    by_cases hpq : (q.media_bundle_id == some b) = true
    · rw [List.find?_cons, hpq] at hf
      have hq0 : q0 = q := by
        simp at hf
        exact hf.symm
      subst hq0
      have hqb : q0.media_bundle_id = some b := by
        rwa [beq_iff_eq] at hpq
      refine ⟨[], publishLoop db rest (b :: sent), ?_, ?_, ?_⟩
      · simp only [publishLoop, hqb]
        rw [if_neg hb]
        simp [List.append_assoc]
      · intro x hx
        simp at hx
      · exact publishLoop_no_batt rest (b :: sent) (List.mem_cons_self b sent)
    · rw [List.find?_cons] at hf
      rw [Bool.not_eq_true] at hpq
      rw [hpq] at hf
      simp only [Bool.false_eq_true, if_false] at hf
      cases hqb : q.media_bundle_id with
      | none =>
        obtain ⟨pre', post', heq, hpre', hpost'⟩ := ih sent hb q0 hf
        refine ⟨publishQuestionUnits db q ++ pre', post', ?_, ?_, hpost'⟩
        · simp only [publishLoop, hqb]
          rw [heq]
          simp [List.append_assoc]
        · intro x hx
          rcases List.mem_append.mp hx with h | h
          · exact qunits_no_batt db q b x h
          · exact hpre' x h
      | some b' =>
        have hne : b' ≠ b := by
          intro he
          subst he
          rw [hqb] at hpq
          simp at hpq
        by_cases hmem : b' ∈ sent
        · obtain ⟨pre', post', heq, hpre', hpost'⟩ := ih sent hb q0 hf
          refine ⟨publishQuestionUnits db q ++ pre', post', ?_, ?_, hpost'⟩
          · simp only [publishLoop, hqb]
            rw [if_pos hmem, heq]
            simp [List.append_assoc]
          · intro x hx
            rcases List.mem_append.mp hx with h | h
            · exact qunits_no_batt db q b x h
            · exact hpre' x h
        · have hb' : b ∉ b' :: sent := by
            intro hc
            rcases List.mem_cons.mp hc with he | he
            · exact hne he.symm
            · exact hb he
          obtain ⟨pre', post', heq, hpre', hpost'⟩ := ih (b' :: sent) hb' q0 hf
          refine ⟨publishBundleUnits db b' ++ publishQuestionUnits db q ++ pre',
            post', ?_, ?_, hpost'⟩
          · simp only [publishLoop, hqb]
            rw [if_neg hmem, heq]
            simp [List.append_assoc]
          · intro x hx
            rcases List.mem_append.mp hx with h | h
            · rcases List.mem_append.mp h with h' | h'
              · exact bunits_no_batt_of_ne db hne x h'
              · exact qunits_no_batt db q b x h'
            · exact hpre' x h

/-- C4: in a publish pass, any bundle referenced by at least one question has
its attachments broadcast exactly once, as one block in ascending position
order, immediately before the first referencing question; no unit outside
that block is an attachment of this bundle, however many questions share it. -/
theorem C4_shared_bundle_broadcast_once :
    ∀ (db : DB) (chat z : Nat) (exp : Option (Option Nat)) (quiz : QuizRow) (b : Nat),
      findQuizActive db z = some quiz →
      questionsOfQuiz db z ≠ [] →
      (∃ q ∈ questionsOfQuiz db z, q.media_bundle_id = some b) →
      db.media_bundle_attachments.Pairwise
        (fun x y => x.bundle_id = y.bundle_id → x.position < y.position) →
      ∃ q0 pre post,
        (questionsOfQuiz db z).find? (fun q => q.media_bundle_id == some b) = some q0 ∧
        q0.media_bundle_id = some b ∧
        (do_publish db chat z exp).2.1 =
          pre ++ (publishBundleUnits db b ++ publishQuestionUnits db q0) ++ post ∧
        (∀ x ∈ pre, isBundleAttOf b x = false) ∧
        (∀ x ∈ post, isBundleAttOf b x = false) ∧
        (get_bundle_atts db b).Pairwise (fun x y => x.position < y.position) := by
  intro db chat z exp quiz b hfq hne ⟨qref, hqmem, hqb⟩ hsort
  have hfind : ∃ q0, (questionsOfQuiz db z).find?
      (fun q => q.media_bundle_id == some b) = some q0 := by
    have : ((questionsOfQuiz db z).find?
        (fun q => q.media_bundle_id == some b)).isSome = true := by
      rw [List.find?_isSome]
      exact ⟨qref, hqmem, by simp [hqb]⟩
    exact Option.isSome_iff_exists.mp this
  obtain ⟨q0, hq0⟩ := hfind
  have hq0b : q0.media_bundle_id = some b := by
    have := List.find?_some hq0
    rwa [beq_iff_eq] at this
  obtain ⟨pre', post', heq, hpre', hpost'⟩ :=
    @publishLoop_bundle_once db b (questionsOfQuiz db z) [] (by simp) q0 hq0
  refine ⟨q0, .head z quiz.title :: pre', post', hq0, hq0b, ?_, ?_, hpost', ?_⟩
  · unfold do_publish
    simp only [hfq]
    rw [if_neg hne]
    simp only [heq]
    simp [List.append_assoc]
  · intro x hx
    rcases List.mem_cons.mp hx with rfl | hx'
    · rfl
    · exact hpre' x hx'
  · have hsub : (get_bundle_atts db b).Pairwise
        (fun x y => x.bundle_id = y.bundle_id → x.position < y.position) :=
      hsort.sublist (List.filter_sublist _)
    refine List.Pairwise.imp_of_mem ?_ hsub
    intro x y hx hy hxy
    have hxb : x.bundle_id = b := by
      have := List.of_mem_filter hx
      rwa [beq_iff_eq] at this
    have hyb : y.bundle_id = b := by
      have := List.of_mem_filter hy
      rwa [beq_iff_eq] at this
    exact hxy (hxb.trans hyb.symm)

/-- Witness for C4 at a concrete store: questions 7 and 8 share bundle 3; the
pass emits bundle 3's two attachments once, right before question 7. -/
theorem C4_shared_bundle_broadcast_once_witness :
    ∃ q0 pre post,
      (questionsOfQuiz dbBundle 5).find? (fun q => q.media_bundle_id == some 3) = some q0 ∧
      q0.media_bundle_id = some 3 ∧
      (do_publish dbBundle 10 5 none).2.1 =
        pre ++ (publishBundleUnits dbBundle 3 ++ publishQuestionUnits dbBundle q0) ++ post ∧
      (∀ x ∈ pre, isBundleAttOf 3 x = false) ∧
      (∀ x ∈ post, isBundleAttOf 3 x = false) ∧
      (get_bundle_atts dbBundle 3).Pairwise (fun x y => x.position < y.position) :=
  C4_shared_bundle_broadcast_once dbBundle 10 5 none ⟨5, "t", 0, 0, false⟩ 3
    rfl (by decide) ⟨⟨7, 5, "q7", 0, some 3⟩, by decide, rfl⟩ (by decide)

end KingBot

namespace KingBot

lemma findQuestion_mem {db : DB} {q : Nat} {qr : QuestionRow}
    (h : findQuestion db q = some qr) : qr ∈ db.questions ∧ qr.id = q := by
  unfold findQuestion at h
  refine ⟨List.mem_of_find?_eq_some h, ?_⟩
  have := List.find?_some h
  rwa [beq_iff_eq] at this

lemma mem_qIds_of_findQuestion {db : DB} {q : Nat} {qr : QuestionRow} {z : Nat}
    (h : findQuestion db q = some qr) (hz : qr.quiz_id = z) :
    q ∈ get_quiz_question_ids db z := by
  obtain ⟨hmem, hid⟩ := findQuestion_mem h
  unfold get_quiz_question_ids questionsOfQuiz
  rw [← hid]
  exact List.mem_map_of_mem _ (List.mem_filter.mpr ⟨hmem, by simp [hz]⟩)

lemma qIds_nodup {db : DB} (z : Nat) (hnd : (db.questions.map (·.id)).Nodup) :
    (get_quiz_question_ids db z).Nodup := by
  unfold get_quiz_question_ids questionsOfQuiz
  exact hnd.sublist (List.Sublist.map _ (List.filter_sublist _))

lemma hasResponse_mono {db db' : DB} {c u q : Nat}
    (h : ∃ extra, db'.responses = db.responses ++ extra)
    (hr : hasResponse db c u q = true) : hasResponse db' c u q = true := by
  obtain ⟨extra, he⟩ := h
  unfold hasResponse at hr ⊢
  rw [he, List.any_append, hr, Bool.true_or]

lemma hasResponse_append_self (db : DB) (c u q idx : Nat) (ic : Bool) (now x : Nat) :
    hasResponse { db with responses :=
        db.responses ++ [⟨c, u, q, idx, ic, now⟩] } c u x
      = (hasResponse db c u x || (q == x)) := by
  unfold hasResponse
  simp [List.any_append]

lemma length_filter_or_self {l : List Nat} {p : Nat → Bool} {q : Nat}
    (hnd : l.Nodup) (hq : q ∈ l) (hpq : p q = false) :
    (l.filter (fun x => p x || (q == x))).length = (l.filter p).length + 1 := by
  induction l with
  | nil => simp at hq
  | cons a rest ih =>
    rw [List.nodup_cons] at hnd
    rcases List.mem_cons.mp hq with rfl | hq'
    · have hrest : rest.filter (fun x => p x || (q == x)) = rest.filter p := by
        refine List.filter_congr ?_
        intro x hx
        have hne : (q == x) = false := by
          rw [beq_eq_false_iff_ne]
          intro he
          exact hnd.1 (he ▸ hx)
        rw [hne, Bool.or_false]
      rw [List.filter_cons, List.filter_cons, hpq]
      simp [hrest]
    · have hne : (q == a) = false := by
        rw [beq_eq_false_iff_ne]
        intro he
        exact hnd.1 (he ▸ hq')
      rw [List.filter_cons, List.filter_cons]
      have hfa : (p a || (q == a)) = p a := by rw [hne, Bool.or_false]
      rw [hfa]
      cases hpa : p a
      · simp only [Bool.false_eq_true, if_false]
        exact ih hnd.2 hq'
      · simp only [if_true, List.length_cons]
        rw [ih hnd.2 hq']

/-- COUNT(DISTINCT question_id) over the user's responses restricted to the
quiz's question ids equals the number of quiz questions the user has
answered. -/
lemma answeredCount_eq_filter (db : DB) (c u z : Nat)
    (hnd : (get_quiz_question_ids db z).Nodup) :
    answeredCount db c u z =
      ((get_quiz_question_ids db z).filter (fun q => hasResponse db c u q)).length := by
  unfold answeredCount
  have h1 : (((db.responses.filter
        (respMatches c u (get_quiz_question_ids db z))).map (·.question_id))).dedup.length
      = (((db.responses.filter
        (respMatches c u (get_quiz_question_ids db z))).map (·.question_id))).toFinset.card :=
    (List.card_toFinset _).symm
  have h2 : ((get_quiz_question_ids db z).filter (fun q => hasResponse db c u q)).length
      = ((get_quiz_question_ids db z).filter (fun q => hasResponse db c u q)).toFinset.card := by
    rw [List.card_toFinset, List.dedup_eq_self.mpr (hnd.filter _)]
  rw [h1, h2]
  congr 1
  ext x
  simp only [List.mem_toFinset, List.mem_map, List.mem_filter]
  constructor
  · rintro ⟨r, ⟨hr, hm⟩, rfl⟩
    unfold respMatches at hm
    simp only [Bool.and_eq_true, beq_iff_eq] at hm
    refine ⟨List.elem_iff.mp hm.2, ?_⟩
    unfold hasResponse
    rw [List.any_eq_true]
    exact ⟨r, hr, by simp [hm.1.1, hm.1.2]⟩
  · rintro ⟨hx, hresp⟩
    unfold hasResponse at hresp
    rw [List.any_eq_true] at hresp
    obtain ⟨r, hr, hm⟩ := hresp
    simp only [Bool.and_eq_true, beq_iff_eq] at hm
    refine ⟨r, ⟨hr, ?_⟩, hm.2⟩
    unfold respMatches
    simp only [Bool.and_eq_true, beq_iff_eq]
    exact ⟨⟨hm.1.1, hm.1.2⟩, List.elem_iff.mpr (by rw [hm.2]; exact hx)⟩

lemma answeredCount_insert {db : DB} {c u q idx now z : Nat} {ic : Bool}
    (hnd : (get_quiz_question_ids db z).Nodup)
    (hq : q ∈ get_quiz_question_ids db z)
    (hnr : hasResponse db c u q = false) :
    answeredCount { db with responses :=
        db.responses ++ [⟨c, u, q, idx, ic, now⟩] } c u z
      = answeredCount db c u z + 1 := by
  have e1 := answeredCount_eq_filter
    { db with responses := db.responses ++ [⟨c, u, q, idx, ic, now⟩] } c u z hnd
  have e2 := answeredCount_eq_filter db c u z hnd
  rw [e1, e2]
  rw [List.filter_congr
    (fun x _ => hasResponse_append_self db c u q idx ic now x)]
  exact length_filter_or_self hnd hq hnr

lemma answeredCount_le (db : DB) (c u z : Nat)
    (hnd : (get_quiz_question_ids db z).Nodup) :
    answeredCount db c u z ≤ (get_quiz_question_ids db z).length := by
  rw [answeredCount_eq_filter db c u z hnd]
  exact List.length_filter_le _ _

lemma all_answered_of_count {db : DB} {c u z : Nat}
    (hnd : (get_quiz_question_ids db z).Nodup)
    (h : answeredCount db c u z = (get_quiz_question_ids db z).length) :
    ∀ x ∈ get_quiz_question_ids db z, hasResponse db c u x = true := by
  rw [answeredCount_eq_filter db c u z hnd] at h
  have heq := (List.filter_sublist (get_quiz_question_ids db z)).eq_of_length h
  intro x hx
  exact List.filter_eq_self.mp heq x hx

lemma count_eq_of_all {db : DB} {c u z : Nat}
    (hnd : (get_quiz_question_ids db z).Nodup)
    (h : ∀ x ∈ get_quiz_question_ids db z, hasResponse db c u x = true) :
    answeredCount db c u z = (get_quiz_question_ids db z).length := by
  rw [answeredCount_eq_filter db c u z hnd, List.filter_eq_self.mpr h]

lemma upsertFinished_has_row (ps : List ProgressRow) (c u z now : Nat) :
    ∃ p ∈ upsertFinished ps c u z now,
      p.origin_chat_id = c ∧ p.user_id = u ∧ p.quiz_id = z ∧
        p.finished_at = some now := by
  unfold upsertFinished
  split
  next hany =>
    rw [List.any_eq_true] at hany
    obtain ⟨p, hmem, hp⟩ := hany
    simp only [Bool.and_eq_true, beq_iff_eq] at hp
    have hcond : (p.origin_chat_id == c && p.user_id == u && p.quiz_id == z) = true := by
      simp [hp.1.1, hp.1.2, hp.2]
    have hin : ({ p with finished_at := some now } : ProgressRow) ∈
        ps.map (fun p =>
          if p.origin_chat_id == c && p.user_id == u && p.quiz_id == z then
            { p with finished_at := some now } else p) := by
      have hmm := List.mem_map_of_mem
        (fun p => if p.origin_chat_id == c && p.user_id == u && p.quiz_id == z then
          { p with finished_at := some now } else p) hmem
      simpa [hcond] using hmm
    exact ⟨{ p with finished_at := some now }, hin, hp.1.1, hp.1.2, hp.2, rfl⟩
  next =>
    exact ⟨⟨c, u, z, 0, now, some now⟩, by simp, rfl, rfl, rfl, rfl⟩

end KingBot

namespace KingBot

lemma qIds_insertResp (db : DB) (c u q idx now z : Nat) :
    get_quiz_question_ids (insertResp db c u q idx now) z
      = get_quiz_question_ids db z := rfl

lemma findName_insertResp (db : DB) (c u q idx now c' u' z : Nat) :
    findName (insertResp db c u q idx now) c' u' z = findName db c' u' z := rfl

lemma resolve_question {db : DB} {q z : Nat}
    (h : ((findQuestion db q).map (·.quiz_id)) = some z) :
    ∃ qr, findQuestion db q = some qr ∧ qr.quiz_id = z := by
  cases hf : findQuestion db q with
  | none => rw [hf] at h; simp at h
  | some qr =>
    rw [hf] at h
    simp only [Option.map_some', Option.some.injEq] at h
    exact ⟨qr, rfl, h⟩

/-- Reduction of `on_answer` once the target, lookup, expiry and registration
gates pass: a duplicate is rejected unchanged; otherwise the response is
inserted and the completion check decides between finishing and continuing. -/
lemma on_answer_step (db : DB) (pending : Pending) (c u q idx now : Nat)
    (qrow : QuestionRow)
    (hfq : findQuestion db q = some qrow)
    (hnexp : quiz_expired db c qrow.quiz_id now ≠ some true)
    (hnm : (findName db c u qrow.quiz_id).isSome = true) :
    (hasResponse db c u q = true →
      on_answer db pending c u q idx 0 now = ⟨db, pending, .alreadyAnswered, []⟩) ∧
    (hasResponse db c u q = false →
      on_answer db pending c u q idx 0 now =
        (if answeredCount (insertResp db c u q idx now) c u qrow.quiz_id
              = (get_quiz_question_ids (insertResp db c u q idx now) qrow.quiz_id).length then
            ⟨{ insertResp db c u q idx now with
                 user_progress := upsertFinished (insertResp db c u q idx now).user_progress
                   c u qrow.quiz_id now },
              pending, .answered (respCorrect db q idx),
              [.finalResult c
                (((findName (insertResp db c u q idx now) c u qrow.quiz_id).map
                    (·.name)).getD "الطالبة") u
                (sumCorrect (insertResp db c u q idx now) c u qrow.quiz_id)
                (get_quiz_question_ids (insertResp db c u q idx now) qrow.quiz_id).length]⟩
          else ⟨insertResp db c u q idx now, pending,
            .answered (respCorrect db q idx), []⟩)) := by
  have hnn : ¬ ((findName db c u qrow.quiz_id).isNone = true) := by
    rw [Option.isNone_iff_eq_none]
    intro hfn
    rw [hfn] at hnm
    simp at hnm
  constructor
  · intro hprev
    simp only [on_answer]
    rw [if_neg (by simp)]
    simp only [hfq]
    rw [if_neg hnexp, if_neg hnn, if_pos hprev]
  · intro hprev
    simp only [on_answer]
    rw [if_neg (by simp)]
    simp only [hfq]
    rw [if_neg hnexp, if_neg hnn, if_neg (by simp [hprev])]

/-- Once the user has answered every question of the quiz, further events of
this quiz change nothing and emit nothing. -/
lemma runAnswers_terminal (c u z : Nat) :
    ∀ (events : List AnsEvent) (db : DB) (pending : Pending),
      (∀ e ∈ events, ((findQuestion db e.question).map (·.quiz_id)) = some z) →
      (∀ e ∈ events, quiz_expired db c z e.now ≠ some true) →
      (findName db c u z).isSome = true →
      (∀ x ∈ get_quiz_question_ids db z, hasResponse db c u x = true) →
      runAnswers c u db pending events = (db, []) := by
  intro events
  induction events with
  | nil => intro db pending _ _ _ _; rfl
  | cons e rest ih =>
    intro db pending hq hexp hnm hall
    obtain ⟨qr, hfq, hz⟩ := resolve_question (hq e (List.mem_cons_self e rest))
    have hprev : hasResponse db c u e.question = true :=
      hall e.question (mem_qIds_of_findQuestion hfq hz)
    have hstep := (on_answer_step db pending c u e.question e.idx e.now qr hfq
      (by rw [hz]; exact hexp e (List.mem_cons_self e rest))
      (by rw [hz]; exact hnm)).1 hprev
    simp only [runAnswers, hstep]
    rw [ih db pending (fun e' he' => hq e' (List.mem_cons_of_mem e he'))
      (fun e' he' => hexp e' (List.mem_cons_of_mem e he')) hnm hall]
    rfl

end KingBot

namespace KingBot

/-- Trace invariant of the grading machine: processing a stream of answer
events of one (chat,user) against one quiz leaves the quiz graph unchanged,
only appends responses, answers every event's question, emits the public
final-result broadcast exactly at the step where the distinct-answer count
reaches the question count — with the participant's registered name and the
correct count as score — and records a finished progress row when it does. -/
lemma runAnswers_spec (c u z : Nat) (nm : String) :
    ∀ (events : List AnsEvent) (db : DB) (pending : Pending),
      (db.questions.map (·.id)).Nodup →
      ((findName db c u z).map (·.name)) = some nm →
      (∀ e ∈ events, quiz_expired db c z e.now ≠ some true) →
      (∀ e ∈ events, ((findQuestion db e.question).map (·.quiz_id)) = some z) →
      (runAnswers c u db pending events).1.questions = db.questions ∧
      (∃ extra, (runAnswers c u db pending events).1.responses
        = db.responses ++ extra) ∧
      (∀ e ∈ events,
        hasResponse (runAnswers c u db pending events).1 c u e.question = true) ∧
      ((runAnswers c u db pending events).2.filter isFinal =
        if answeredCount db c u z < (get_quiz_question_ids db z).length
            ∧ answeredCount (runAnswers c u db pending events).1 c u z
              = (get_quiz_question_ids db z).length then
          [Sent.finalResult c nm u
            (sumCorrect (runAnswers c u db pending events).1 c u z)
            (get_quiz_question_ids db z).length]
        else []) ∧
      ((runAnswers c u db pending events).2.filter isFinal ≠ [] →
        ∃ p ∈ (runAnswers c u db pending events).1.user_progress,
          p.origin_chat_id = c ∧ p.user_id = u ∧ p.quiz_id = z ∧
            p.finished_at.isSome = true) := by
  intro events
  induction events with
  | nil =>
    intro db pending hnodup hname hexp hq
    refine ⟨rfl, ⟨[], (List.append_nil _).symm⟩, ?_, ?_, ?_⟩
    · intro e he
      exact absurd he (List.not_mem_nil e)
    · rw [if_neg]
      · rfl
      · rintro ⟨h1, h2⟩
        have h2' : answeredCount db c u z = (get_quiz_question_ids db z).length := h2
        omega
    · intro h
      exact absurd rfl h
  | cons e rest ih =>
    intro db pending hnodup hname hexp hq
    obtain ⟨qr, hfq, hz⟩ := resolve_question (hq e (List.mem_cons_self e rest))
    have hndq : (get_quiz_question_ids db z).Nodup := qIds_nodup z hnodup
    have hqmem : e.question ∈ get_quiz_question_ids db z :=
      mem_qIds_of_findQuestion hfq hz
    have hsome : (findName db c u z).isSome = true := by
      cases hfn : findName db c u z
      · rw [hfn] at hname
        simp at hname
      · rfl
    have hexp' : quiz_expired db c qr.quiz_id e.now ≠ some true := by
      rw [hz]
      exact hexp e (List.mem_cons_self e rest)
    have hnm' : (findName db c u qr.quiz_id).isSome = true := by
      rw [hz]
      exact hsome
    by_cases hprev : hasResponse db c u e.question = true
    · have hstep := (on_answer_step db pending c u e.question e.idx e.now qr
        hfq hexp' hnm').1 hprev
      have heq : runAnswers c u db pending (e :: rest) =
          runAnswers c u db pending rest := by
        simp only [runAnswers, hstep, List.nil_append]
      obtain ⟨ih1, ih2, ih3, ih4, ih5⟩ := ih db pending hnodup hname
        (fun e' he' => hexp e' (List.mem_cons_of_mem e he'))
        (fun e' he' => hq e' (List.mem_cons_of_mem e he'))
      rw [heq]
      refine ⟨ih1, ih2, ?_, ih4, ih5⟩
      intro e' he'
      rcases List.mem_cons.mp he' with rfl | he''
      · exact hasResponse_mono ih2 hprev
      · exact ih3 e' he''
    · rw [Bool.not_eq_true] at hprev
      have hstep := (on_answer_step db pending c u e.question e.idx e.now qr
        hfq hexp' hnm').2 hprev
      rw [hz] at hstep
      rw [qIds_insertResp, findName_insertResp] at hstep
      have hgetd : ((findName db c u z).map (·.name)).getD "الطالبة" = nm := by
        rw [hname]
        rfl
      rw [hgetd] at hstep
      set D1 : DB := insertResp db c u e.question e.idx e.now with hD1
      have hcnt1 : answeredCount D1 c u z = answeredCount db c u z + 1 :=
        answeredCount_insert hndq hqmem hprev
      have hle1 : answeredCount D1 c u z ≤ (get_quiz_question_ids db z).length :=
        answeredCount_le D1 c u z hndq
      have hq2 : D1.questions = db.questions := rfl
      have hr1 : D1.responses = db.responses ++
          [⟨c, u, e.question, e.idx, respCorrect db e.question e.idx, e.now⟩] := rfl
      by_cases hfin :
          answeredCount D1 c u z = (get_quiz_question_ids db z).length
      · rw [if_pos hfin] at hstep
        have hndq1 : (get_quiz_question_ids D1 z).Nodup := hndq
        have hfin1 : answeredCount D1 c u z = (get_quiz_question_ids D1 z).length := hfin
        have hallD1 : ∀ x ∈ get_quiz_question_ids db z,
            hasResponse D1 c u x = true :=
          fun x hx => all_answered_of_count hndq1 hfin1 x hx
        have hterm := runAnswers_terminal c u z rest
          ({ D1 with user_progress := upsertFinished D1.user_progress c u z e.now })
          pending
          (fun e' he' => hq e' (List.mem_cons_of_mem e he'))
          (fun e' he' => hexp e' (List.mem_cons_of_mem e he'))
          hsome (fun x hx => hallD1 x hx)
        have heq : runAnswers c u db pending (e :: rest) =
            ({ D1 with user_progress := upsertFinished D1.user_progress c u z e.now },
             [Sent.finalResult c nm u (sumCorrect D1 c u z)
               (get_quiz_question_ids db z).length]) := by
          simp only [runAnswers, hstep]
          rw [hterm]
          simp
        rw [heq]
        have hltdb : answeredCount db c u z < (get_quiz_question_ids db z).length := by
          omega
        have hfin2 : answeredCount
            { D1 with user_progress := upsertFinished D1.user_progress c u z e.now }
            c u z = (get_quiz_question_ids db z).length := hfin
        have hrow : ({ D1 with
              user_progress := upsertFinished D1.user_progress c u z e.now } : DB).responses
            = db.responses
              ++ [⟨c, u, e.question, e.idx, respCorrect db e.question e.idx, e.now⟩] := rfl
        refine ⟨?_, ⟨_, hrow⟩, ?_, ?_, ?_⟩
        · rfl
        · intro e' he'
          rcases List.mem_cons.mp he' with rfl | he''
          · exact hallD1 _ hqmem
          · obtain ⟨qr', hfq', hz'⟩ :=
              resolve_question (hq e' (List.mem_cons_of_mem e he''))
            exact hallD1 e'.question (mem_qIds_of_findQuestion hfq' hz')
        · have hflt : List.filter isFinal
              [Sent.finalResult c nm u (sumCorrect D1 c u z)
                (get_quiz_question_ids db z).length]
              = [Sent.finalResult c nm u (sumCorrect D1 c u z)
                (get_quiz_question_ids db z).length] := by
            simp [isFinal]
          rw [hflt, if_pos ⟨hltdb, hfin2⟩]
          rfl
        · intro _
          obtain ⟨p, hp, h1, h2, h3, h4⟩ :=
            upsertFinished_has_row D1.user_progress c u z e.now
          exact ⟨p, hp, h1, h2, h3, by rw [h4]; rfl⟩
      · rw [if_neg hfin] at hstep
        have heq : runAnswers c u db pending (e :: rest) =
            runAnswers c u D1 pending rest := by
          simp only [runAnswers, hstep, List.nil_append]
        obtain ⟨ih1, ih2, ih3, ih4, ih5⟩ := ih D1 pending hnodup hname
          (fun e' he' => hexp e' (List.mem_cons_of_mem e he'))
          (fun e' he' => hq e' (List.mem_cons_of_mem e he'))
        have hq1 : get_quiz_question_ids D1 z = get_quiz_question_ids db z := rfl
        rw [hq1] at ih4
        have hlt1 : answeredCount D1 c u z < (get_quiz_question_ids db z).length :=
          Nat.lt_of_le_of_ne hle1 hfin
        have hltdb : answeredCount db c u z < (get_quiz_question_ids db z).length := by
          omega
        rw [heq]
        refine ⟨ih1.trans hq2, ?_, ?_, ?_, ih5⟩
        · obtain ⟨extra, hex⟩ := ih2
          exact ⟨_, by rw [hex, hr1, List.append_assoc]⟩
        · intro e' he'
          rcases List.mem_cons.mp he' with rfl | he''
          · refine hasResponse_mono ih2 ?_
            rw [hD1]
            unfold insertResp hasResponse
            simp [List.any_append]
          · exact ih3 e' he''
        · rw [ih4]
          simp only [hlt1, hltdb, true_and]

end KingBot

namespace KingBot

/-- C2: the completion check.  Per step (gates passed), the finish block —
which writes Progress.finishedAt and emits the public final-result broadcast —
runs exactly when a response was inserted and the count of distinct questions
of the quiz answered by the user equals the quiz's question count.  Per trace,
a registered user who starts with no responses and answers every question of a
non-empty, never-expired quiz gets exactly one public final-result broadcast,
whose score is the number of correct answers among the user's stored
responses to that quiz, and exactly then a finished progress row exists. -/
theorem C2_completion_exactly_once :
    (∀ (db : DB) (pending : Pending) (c u q idx now : Nat) (qrow : QuestionRow),
      findQuestion db q = some qrow →
      quiz_expired db c qrow.quiz_id now ≠ some true →
      (findName db c u qrow.quiz_id).isSome = true →
      (((on_answer db pending c u q idx 0 now).sent.any isFinal = true) ↔
        (hasResponse db c u q = false ∧
          answeredCount (insertResp db c u q idx now) c u qrow.quiz_id
            = (get_quiz_question_ids db qrow.quiz_id).length))) ∧
    (∀ (db : DB) (pending : Pending) (c u z : Nat) (nm : String)
        (events : List AnsEvent),
      (db.questions.map (·.id)).Nodup →
      ((findName db c u z).map (·.name)) = some nm →
      (∀ e ∈ events, quiz_expired db c z e.now ≠ some true) →
      (∀ e ∈ events, ((findQuestion db e.question).map (·.quiz_id)) = some z) →
      (∀ qr ∈ db.questions, qr.quiz_id = z → ∃ e ∈ events, e.question = qr.id) →
      (∀ x ∈ get_quiz_question_ids db z, hasResponse db c u x = false) →
      get_quiz_question_ids db z ≠ [] →
      ((runAnswers c u db pending events).2.filter isFinal =
        [Sent.finalResult c nm u
          (sumCorrect (runAnswers c u db pending events).1 c u z)
          (get_quiz_question_ids db z).length]) ∧
      (∃ p ∈ (runAnswers c u db pending events).1.user_progress,
        p.origin_chat_id = c ∧ p.user_id = u ∧ p.quiz_id = z ∧
          p.finished_at.isSome = true)) := by
  constructor
  · intro db pending c u q idx now qrow hfq hnexp hnm
    by_cases hprev : hasResponse db c u q = true
    · have h := (on_answer_step db pending c u q idx now qrow hfq hnexp hnm).1 hprev
      rw [h]
      simp [hprev]
    · rw [Bool.not_eq_true] at hprev
      have h := (on_answer_step db pending c u q idx now qrow hfq hnexp hnm).2 hprev
      rw [h, qIds_insertResp]
      by_cases hc : answeredCount (insertResp db c u q idx now) c u qrow.quiz_id
          = (get_quiz_question_ids db qrow.quiz_id).length
      · rw [if_pos hc]
        simp [isFinal, hprev, hc]
      · rw [if_neg hc]
        simp [hprev, hc]
  · intro db pending c u z nm events hnodup hname hexp hq hcover hinit hne
    obtain ⟨ih1, ih2, ih3, ih4, ih5⟩ :=
      runAnswers_spec c u z nm events db pending hnodup hname hexp hq
    have hndq : (get_quiz_question_ids db z).Nodup := qIds_nodup z hnodup
    have hcnt0 : answeredCount db c u z = 0 := by
      rw [answeredCount_eq_filter db c u z hndq]
      rw [List.filter_eq_nil_iff.mpr (fun a ha => by simp [hinit a ha])]
      rfl
    have hN : 0 < (get_quiz_question_ids db z).length :=
      List.length_pos.mpr hne
    have hresfin : ∀ x ∈ get_quiz_question_ids db z,
        hasResponse (runAnswers c u db pending events).1 c u x = true := by
      intro x hx
      unfold get_quiz_question_ids questionsOfQuiz at hx
      obtain ⟨qrow, hqrow, rfl⟩ := List.mem_map.mp hx
      have hqf := List.mem_filter.mp hqrow
      have hzq : qrow.quiz_id = z := by simpa using hqf.2
      obtain ⟨ev, hev, hevq⟩ := hcover qrow hqf.1 hzq
      rw [← hevq]
      exact ih3 ev hev
    have hq1 : get_quiz_question_ids (runAnswers c u db pending events).1 z
        = get_quiz_question_ids db z := by
      unfold get_quiz_question_ids questionsOfQuiz
      rw [ih1]
    have hfincnt : answeredCount (runAnswers c u db pending events).1 c u z
        = (get_quiz_question_ids db z).length := by
      have hnd' : (get_quiz_question_ids (runAnswers c u db pending events).1 z).Nodup := by
        rw [hq1]
        exact hndq
      have hall' : ∀ x ∈ get_quiz_question_ids (runAnswers c u db pending events).1 z,
          hasResponse (runAnswers c u db pending events).1 c u x = true :=
        fun x hx => hresfin x (hq1 ▸ hx)
      rw [count_eq_of_all hnd' hall', hq1]
    rw [if_pos ⟨by omega, hfincnt⟩] at ih4
    refine ⟨ih4, ih5 ?_⟩
    rw [ih4]
    simp

/-- Witness for C2 at a concrete store: user 20 answers both questions of
quiz 5; exactly one final broadcast with the correct-count score, and a
finished progress row. -/
theorem C2_completion_exactly_once_witness :
    ((runAnswers 10 20 dbQuiz2 [] [⟨7, 0, 1⟩, ⟨8, 0, 2⟩]).2.filter isFinal =
      [Sent.finalResult 10 "nm" 20
        (sumCorrect (runAnswers 10 20 dbQuiz2 [] [⟨7, 0, 1⟩, ⟨8, 0, 2⟩]).1 10 20 5)
        (get_quiz_question_ids dbQuiz2 5).length]) ∧
    (∃ p ∈ (runAnswers 10 20 dbQuiz2 [] [⟨7, 0, 1⟩, ⟨8, 0, 2⟩]).1.user_progress,
      p.origin_chat_id = 10 ∧ p.user_id = 20 ∧ p.quiz_id = 5 ∧
        p.finished_at.isSome = true) :=
  C2_completion_exactly_once.2 dbQuiz2 [] 10 20 5 "nm" [⟨7, 0, 1⟩, ⟨8, 0, 2⟩]
    (by decide) rfl (by decide) (by decide) (by decide) (by decide) (by decide)

end KingBot

namespace KingBot

lemma mem_of_lookup_eq_some : ∀ {m : List (Nat × Nat)} {k v : Nat},
    m.lookup k = some v → (k, v) ∈ m := by
  intro m
  induction m with
  | nil => intro k v h; simp [List.lookup] at h
  | cons p rest ih =>
    intro k v h
    obtain ⟨pk, pv⟩ := p
    by_cases hkp : k = pk
    · subst hkp
      simp only [List.lookup, beq_self_eq_true, Option.some.injEq] at h
      subst h
      exact List.mem_cons_self _ _
    · have hf : (k == pk) = false := by rw [beq_eq_false_iff_ne]; exact hkp
      simp only [List.lookup, hf] at h
      exact List.mem_cons_of_mem _ (ih h)

lemma lookup_append_left : ∀ {m : List (Nat × Nat)} (madd : List (Nat × Nat))
    {k v : Nat}, m.lookup k = some v → (m ++ madd).lookup k = some v := by
  intro m
  induction m with
  | nil => intro madd k v h; simp [List.lookup] at h
  | cons p rest ih =>
    intro madd k v h
    obtain ⟨pk, pv⟩ := p
    by_cases hkp : k = pk
    · subst hkp
      simp only [List.lookup, List.cons_append, beq_self_eq_true] at h ⊢
      exact h
    · have hf : (k == pk) = false := by rw [beq_eq_false_iff_ne]; exact hkp
      simp only [List.lookup, List.cons_append, hf] at h ⊢
      exact ih madd h

lemma opts_filter_append_high {l2 : List OptionRow} (l1 : List OptionRow) {k n : Nat}
    (hk : k < n) (h2 : ∀ x ∈ l2, n ≤ x.question_id) :
    (l1 ++ l2).filter (fun o => o.question_id == k)
      = l1.filter (fun o => o.question_id == k) := by
  have h0 : l2.filter (fun o => o.question_id == k) = [] :=
    List.filter_eq_nil_iff.mpr (fun x hx => by
      have := h2 x hx
      simp only [beq_iff_eq]
      omega)
  rw [List.filter_append, h0, List.append_nil]

lemma atts_filter_append_high {l2 : List QAttRow} (l1 : List QAttRow) {k n : Nat}
    (hk : k < n) (h2 : ∀ x ∈ l2, n ≤ x.question_id) :
    (l1 ++ l2).filter (fun a => a.question_id == k)
      = l1.filter (fun a => a.question_id == k) := by
  have h0 : l2.filter (fun a => a.question_id == k) = [] :=
    List.filter_eq_nil_iff.mpr (fun x hx => by
      have := h2 x hx
      simp only [beq_iff_eq]
      omega)
  rw [List.filter_append, h0, List.append_nil]

lemma batts_filter_append_high {l2 : List BAttRow} (l1 : List BAttRow) {k n : Nat}
    (hk : k < n) (h2 : ∀ x ∈ l2, n ≤ x.bundle_id) :
    (l1 ++ l2).filter (fun a => a.bundle_id == k)
      = l1.filter (fun a => a.bundle_id == k) := by
  have h0 : l2.filter (fun a => a.bundle_id == k) = [] :=
    List.filter_eq_nil_iff.mpr (fun x hx => by
      have := h2 x hx
      simp only [beq_iff_eq]
      omega)
  rw [List.filter_append, h0, List.append_nil]

lemma qs_filter_append_ne {l2 : List QuestionRow} (l1 : List QuestionRow) {z : Nat}
    (h2 : ∀ x ∈ l2, x.quiz_id ≠ z) :
    (l1 ++ l2).filter (fun q => q.quiz_id == z)
      = l1.filter (fun q => q.quiz_id == z) := by
  have h0 : l2.filter (fun q => q.quiz_id == z) = [] :=
    List.filter_eq_nil_iff.mpr (fun x hx => by
      have := h2 x hx
      simp only [beq_iff_eq]
      exact this)
  rw [List.filter_append, h0, List.append_nil]

lemma bs_filter_append_ne {l2 : List BundleRow} (l1 : List BundleRow) {z : Nat}
    (h2 : ∀ x ∈ l2, x.quiz_id ≠ z) :
    (l1 ++ l2).filter (fun b => b.quiz_id == z)
      = l1.filter (fun b => b.quiz_id == z) := by
  have h0 : l2.filter (fun b => b.quiz_id == z) = [] :=
    List.filter_eq_nil_iff.mpr (fun x hx => by
      have := h2 x hx
      simp only [beq_iff_eq]
      exact this)
  rw [List.filter_append, h0, List.append_nil]

lemma opts_filter_old_nil {l : List OptionRow} {k n : Nat} (hk : n ≤ k)
    (h : ∀ o ∈ l, o.question_id < n) :
    l.filter (fun o => o.question_id == k) = [] :=
  List.filter_eq_nil_iff.mpr (fun x hx => by
    have := h x hx
    simp only [beq_iff_eq]
    omega)

lemma atts_filter_old_nil {l : List QAttRow} {k n : Nat} (hk : n ≤ k)
    (h : ∀ a ∈ l, a.question_id < n) :
    l.filter (fun a => a.question_id == k) = [] :=
  List.filter_eq_nil_iff.mpr (fun x hx => by
    have := h x hx
    simp only [beq_iff_eq]
    omega)

lemma batts_filter_old_nil {l : List BAttRow} {k n : Nat} (hk : n ≤ k)
    (h : ∀ a ∈ l, a.bundle_id < n) :
    l.filter (fun a => a.bundle_id == k) = [] :=
  List.filter_eq_nil_iff.mpr (fun x hx => by
    have := h x hx
    simp only [beq_iff_eq]
    omega)

lemma opts_filter_map_self (opts : List OptionRow) (k : Nat) :
    ((opts.map (fun o => { o with question_id := k })).filter
        (fun o => o.question_id == k))
      = opts.map (fun o => { o with question_id := k }) := by
  rw [List.filter_eq_self]
  intro a ha
  obtain ⟨o, _, rfl⟩ := List.mem_map.mp ha
  simp

lemma atts_filter_map_self (atts : List QAttRow) (k : Nat) :
    ((atts.map (fun a => { a with question_id := k })).filter
        (fun a => a.question_id == k))
      = atts.map (fun a => { a with question_id := k }) := by
  rw [List.filter_eq_self]
  intro a ha
  obtain ⟨o, _, rfl⟩ := List.mem_map.mp ha
  simp

lemma batts_filter_map_self (atts : List BAttRow) (k : Nat) :
    ((atts.map (fun a => { a with bundle_id := k })).filter
        (fun a => a.bundle_id == k))
      = atts.map (fun a => { a with bundle_id := k }) := by
  rw [List.filter_eq_self]
  intro a ha
  obtain ⟨o, _, rfl⟩ := List.mem_map.mp ha
  simp

lemma Grows.refl (db : DB) : Grows db db := by
  refine ⟨rfl, rfl, rfl, rfl, rfl, rfl, rfl, Nat.le_refl _, Nat.le_refl _,
    ⟨[], (List.append_nil _).symm, ?_⟩, ⟨[], (List.append_nil _).symm, ?_⟩,
    ⟨[], (List.append_nil _).symm, ?_⟩, ⟨[], (List.append_nil _).symm, ?_⟩⟩
  all_goals intro x hx; exact absurd hx (List.not_mem_nil x)

lemma Grows.trans {a b c : DB} (g1 : Grows a b) (g2 : Grows b c) : Grows a c := by
  obtain ⟨l1, he1, hb1⟩ := g1.questions_ext
  obtain ⟨l2, he2, hb2⟩ := g2.questions_ext
  obtain ⟨o1, hoe1, hob1⟩ := g1.options_ext
  obtain ⟨o2, hoe2, hob2⟩ := g2.options_ext
  obtain ⟨a1, hae1, hab1⟩ := g1.atts_ext
  obtain ⟨a2, hae2, hab2⟩ := g2.atts_ext
  obtain ⟨t1, hte1, htb1⟩ := g1.batts_ext
  obtain ⟨t2, hte2, htb2⟩ := g2.batts_ext
  refine ⟨g2.quizzes_eq.trans g1.quizzes_eq, g2.responses_eq.trans g1.responses_eq,
    g2.names_eq.trans g1.names_eq, g2.progress_eq.trans g1.progress_eq,
    g2.sent_eq.trans g1.sent_eq, g2.nextQuiz_eq.trans g1.nextQuiz_eq,
    g2.nextSent_eq.trans g1.nextSent_eq, Nat.le_trans g1.nq_le g2.nq_le,
    Nat.le_trans g1.nb_le g2.nb_le,
    ⟨l1 ++ l2, by rw [he2, he1, List.append_assoc], ?_⟩,
    ⟨o1 ++ o2, by rw [hoe2, hoe1, List.append_assoc], ?_⟩,
    ⟨a1 ++ a2, by rw [hae2, hae1, List.append_assoc], ?_⟩,
    ⟨t1 ++ t2, by rw [hte2, hte1, List.append_assoc], ?_⟩⟩
  · intro x hx
    rcases List.mem_append.mp hx with h | h
    · exact ⟨(hb1 x h).1, Nat.lt_of_lt_of_le (hb1 x h).2 g2.nq_le⟩
    · exact ⟨Nat.le_trans g1.nq_le (hb2 x h).1, (hb2 x h).2⟩
  · intro x hx
    rcases List.mem_append.mp hx with h | h
    · exact ⟨(hob1 x h).1, Nat.lt_of_lt_of_le (hob1 x h).2 g2.nq_le⟩
    · exact ⟨Nat.le_trans g1.nq_le (hob2 x h).1, (hob2 x h).2⟩
  · intro x hx
    rcases List.mem_append.mp hx with h | h
    · exact ⟨(hab1 x h).1, Nat.lt_of_lt_of_le (hab1 x h).2 g2.nq_le⟩
    · exact ⟨Nat.le_trans g1.nq_le (hab2 x h).1, (hab2 x h).2⟩
  · intro x hx
    rcases List.mem_append.mp hx with h | h
    · exact ⟨(htb1 x h).1, Nat.lt_of_lt_of_le (htb1 x h).2 g2.nb_le⟩
    · exact ⟨Nat.le_trans g1.nb_le (htb2 x h).1, (htb2 x h).2⟩

lemma Grows.opts_stable {db db' : DB} (g : Grows db db') {k : Nat}
    (hk : k < db.nextQuestionId) :
    options_for_question db' k = options_for_question db k := by
  obtain ⟨l, he, hb⟩ := g.options_ext
  unfold options_for_question
  rw [he]
  exact opts_filter_append_high _ hk (fun x hx => (hb x hx).1)

lemma Grows.atts_stable {db db' : DB} (g : Grows db db') {k : Nat}
    (hk : k < db.nextQuestionId) :
    get_question_atts db' k = get_question_atts db k := by
  obtain ⟨l, he, hb⟩ := g.atts_ext
  unfold get_question_atts
  rw [he]
  exact atts_filter_append_high _ hk (fun x hx => (hb x hx).1)

lemma Grows.batts_stable {db db' : DB} (g : Grows db db') {k : Nat}
    (hk : k < db.nextBundleId) :
    get_bundle_atts db' k = get_bundle_atts db k := by
  obtain ⟨l, he, hb⟩ := g.batts_ext
  unfold get_bundle_atts
  rw [he]
  exact batts_filter_append_high _ hk (fun x hx => (hb x hx).1)

lemma ClonedB_transport {db db' : DB} (g : Grows db db') {b nb : Nat}
    (hb : b < db.nextBundleId) (hnb : nb < db.nextBundleId)
    (h : ClonedB db db b nb) : ClonedB db' db' b nb := by
  unfold ClonedB at h ⊢
  rw [g.batts_stable hb, g.batts_stable hnb]
  exact h

lemma CopiedQ_congr {dbo dbo' dbn dbn' : DB} {dst now : Nat}
    {m m' : List (Nat × Nat)} {oq nq : QuestionRow}
    (h : CopiedQ dbo dbn dst now m oq nq)
    (ho1 : options_for_question dbo' oq.id = options_for_question dbo oq.id)
    (ho2 : get_question_atts dbo' oq.id = get_question_atts dbo oq.id)
    (hn1 : options_for_question dbn' nq.id = options_for_question dbn nq.id)
    (hn2 : get_question_atts dbn' nq.id = get_question_atts dbn nq.id)
    (hm : ∀ k v, m.lookup k = some v → m'.lookup k = some v) :
    CopiedQ dbo' dbn' dst now m' oq nq := by
  obtain ⟨h1, h2, h3, h4, h5, h6⟩ := h
  refine ⟨h1, h2, h3, ?_, ?_, ?_⟩
  · cases hob : oq.media_bundle_id with
    | none => simp only [hob] at h4 ⊢; exact h4
    | some b =>
      simp only [hob] at h4 ⊢
      obtain ⟨nb, hl, hx⟩ := h4
      exact ⟨nb, hm b nb hl, hx⟩
  · rw [hn1, h5, ho1]
  · rw [hn2, h6, ho2]

lemma forall₂_imp_mem {α β : Type} {R S : α → β → Prop} :
    ∀ {l1 : List α} {l2 : List β}, List.Forall₂ R l1 l2 →
      (∀ a ∈ l1, ∀ b ∈ l2, R a b → S a b) → List.Forall₂ S l1 l2 := by
  intro l1 l2 h
  induction h with
  | nil => intro _; exact List.Forall₂.nil
  | cons hab htail ih =>
    intro himp
    exact List.Forall₂.cons
      (himp _ (List.mem_cons_self _ _) _ (List.mem_cons_self _ _) hab)
      (ih fun a ha b hb hr =>
        himp a (List.mem_cons_of_mem _ ha) b (List.mem_cons_of_mem _ hb) hr)

lemma qsort_append_one {l : List QuestionRow} {q : QuestionRow}
    (hs : l.Pairwise (fun a b => a.id < b.id)) (hl : ∀ x ∈ l, x.id < q.id) :
    (l ++ [q]).Pairwise (fun a b => a.id < b.id) :=
  List.pairwise_append.mpr ⟨hs, List.pairwise_singleton _ _, fun a ha b hb => by
    rw [List.mem_singleton] at hb
    subst hb
    exact hl a ha⟩

end KingBot

namespace KingBot

lemma not_mem_keys_of_lookup_none : ∀ {m : List (Nat × Nat)} {k : Nat},
    m.lookup k = none → k ∉ m.map Prod.fst := by
  intro m
  induction m with
  | nil => intro k _ h; exact absurd h (List.not_mem_nil k)
  | cons p rest ih =>
    intro k h hmem
    obtain ⟨pk, pv⟩ := p
    by_cases hkp : k = pk
    · subst hkp
      simp [List.lookup] at h
    · have hf : (k == pk) = false := by rw [beq_eq_false_iff_ne]; exact hkp
      simp only [List.lookup, hf] at h
      rcases List.mem_cons.mp hmem with h' | h'
      · exact hkp h'
      · exact ih h h'

lemma lookup_append_of_none : ∀ {m : List (Nat × Nat)} (madd : List (Nat × Nat))
    {k : Nat}, m.lookup k = none → (m ++ madd).lookup k = madd.lookup k := by
  intro m
  induction m with
  | nil => intro madd k _; rfl
  | cons p rest ih =>
    intro madd k h
    obtain ⟨pk, pv⟩ := p
    by_cases hkp : k = pk
    · subst hkp
      simp [List.lookup] at h
    · have hf : (k == pk) = false := by rw [beq_eq_false_iff_ne]; exact hkp
      simp only [List.lookup, List.cons_append, hf] at h ⊢
      exact ih madd h

/-- Core of one question insert: appending the copied question row together
with verbatim copies of its options and own attachments. -/
lemma question_insert_spec (base : DB) (qrow : QuestionRow) (dst now : Nat)
    (nbOpt : Option Nat) (m1 : List (Nat × Nat)) (db2 : DB)
    (hdb2 : db2 = { base with
      questions := base.questions ++ [⟨base.nextQuestionId, dst, qrow.text, now, nbOpt⟩],
      options := base.options ++ (options_for_question base qrow.id).map
        (fun o => { o with question_id := base.nextQuestionId }),
      question_attachments := base.question_attachments ++
        (get_question_atts base qrow.id).map
          (fun a => { a with question_id := base.nextQuestionId }),
      nextQuestionId := base.nextQuestionId + 1 })
    (inv : MergeInv base m1)
    (hlink : match qrow.media_bundle_id with
      | none => nbOpt = none
      | some b => ∃ nb, m1.lookup b = some nb ∧ nbOpt = some nb) :
    Grows base db2 ∧ MergeInv db2 m1 ∧
    db2.media_bundles = base.media_bundles ∧
    db2.questions = base.questions ++
      [⟨base.nextQuestionId, dst, qrow.text, now, nbOpt⟩] ∧
    CopiedQ base db2 dst now m1 qrow
      ⟨base.nextQuestionId, dst, qrow.text, now, nbOpt⟩ := by
  subst hdb2
  have hoptsnew : options_for_question
      { base with
        questions := base.questions ++ [⟨base.nextQuestionId, dst, qrow.text, now, nbOpt⟩],
        options := base.options ++ (options_for_question base qrow.id).map
          (fun o => { o with question_id := base.nextQuestionId }),
        question_attachments := base.question_attachments ++
          (get_question_atts base qrow.id).map
            (fun a => { a with question_id := base.nextQuestionId }),
        nextQuestionId := base.nextQuestionId + 1 } base.nextQuestionId
      = (options_for_question base qrow.id).map
          (fun o => { o with question_id := base.nextQuestionId }) := by
    show (base.options ++ (options_for_question base qrow.id).map
        (fun (o : OptionRow) => { o with question_id := base.nextQuestionId })).filter
          (fun o => o.question_id == base.nextQuestionId)
      = (options_for_question base qrow.id).map
          (fun (o : OptionRow) => { o with question_id := base.nextQuestionId })
    rw [List.filter_append,
      opts_filter_old_nil (Nat.le_refl _) inv.opt_lt,
      opts_filter_map_self, List.nil_append]
  have hattsnew : get_question_atts
      { base with
        questions := base.questions ++ [⟨base.nextQuestionId, dst, qrow.text, now, nbOpt⟩],
        options := base.options ++ (options_for_question base qrow.id).map
          (fun o => { o with question_id := base.nextQuestionId }),
        question_attachments := base.question_attachments ++
          (get_question_atts base qrow.id).map
            (fun a => { a with question_id := base.nextQuestionId }),
        nextQuestionId := base.nextQuestionId + 1 } base.nextQuestionId
      = (get_question_atts base qrow.id).map
          (fun a => { a with question_id := base.nextQuestionId }) := by
    show (base.question_attachments ++ (get_question_atts base qrow.id).map
        (fun (a : QAttRow) => { a with question_id := base.nextQuestionId })).filter
          (fun a => a.question_id == base.nextQuestionId)
      = (get_question_atts base qrow.id).map
          (fun (a : QAttRow) => { a with question_id := base.nextQuestionId })
    rw [List.filter_append,
      atts_filter_old_nil (Nat.le_refl _) inv.att_lt,
      atts_filter_map_self, List.nil_append]
  refine ⟨?_, ?_, rfl, rfl, ?_⟩
  · refine ⟨rfl, rfl, rfl, rfl, rfl, rfl, rfl, Nat.le_succ _, Nat.le_refl _,
      ⟨[⟨base.nextQuestionId, dst, qrow.text, now, nbOpt⟩], rfl, ?_⟩,
      ⟨(options_for_question base qrow.id).map
        (fun o => { o with question_id := base.nextQuestionId }), rfl, ?_⟩,
      ⟨(get_question_atts base qrow.id).map
        (fun a => { a with question_id := base.nextQuestionId }), rfl, ?_⟩,
      ⟨[], (List.append_nil _).symm, ?_⟩⟩
    · intro x hx
      rw [List.mem_singleton] at hx
      subst hx
      exact ⟨Nat.le_refl _, Nat.lt_succ_self _⟩
    · intro x hx
      obtain ⟨o, _, rfl⟩ := List.mem_map.mp hx
      exact ⟨Nat.le_refl _, Nat.lt_succ_self _⟩
    · intro x hx
      obtain ⟨a, _, rfl⟩ := List.mem_map.mp hx
      exact ⟨Nat.le_refl _, Nat.lt_succ_self _⟩
    · intro x hx
      exact absurd hx (List.not_mem_nil x)
  · refine ⟨?_, ?_, inv.batt_lt, ?_, ?_, inv.m_lt, inv.m_keys_lt, inv.m_nodup, ?_⟩
    · intro o ho
      rcases List.mem_append.mp ho with h | h
      · exact Nat.lt_succ_of_lt (inv.opt_lt o h)
      · obtain ⟨o', _, rfl⟩ := List.mem_map.mp h
        exact Nat.lt_succ_self _
    · intro a ha
      rcases List.mem_append.mp ha with h | h
      · exact Nat.lt_succ_of_lt (inv.att_lt a h)
      · obtain ⟨a', _, rfl⟩ := List.mem_map.mp h
        exact Nat.lt_succ_self _
    · intro q hq
      rcases List.mem_append.mp hq with h | h
      · exact Nat.lt_succ_of_lt (inv.q_lt q h)
      · rw [List.mem_singleton] at h
        subst h
        exact Nat.lt_succ_self _
    · exact qsort_append_one inv.qsort (fun x hx => inv.q_lt x hx)
    · intro p hp
      exact inv.m_cloned p hp
  · exact ⟨rfl, rfl, rfl, hlink, hoptsnew, hattsnew⟩

end KingBot

namespace KingBot

/-- Behaviour of `_copy_bundle`: memo hit returns everything unchanged; memo
miss clones the bundle row and its attachments into the destination quiz and
extends the memo with the new pair. -/
lemma copy_bundle_spec (db : DB) (dst now b : Nat) (m : List (Nat × Nat))
    (hb : b < db.nextBundleId)
    (inv : MergeInv db m) :
    Grows db (copy_bundle db dst now b m).1 ∧
    MergeInv (copy_bundle db dst now b m).1 (copy_bundle db dst now b m).2.2 ∧
    (copy_bundle db dst now b m).1.nextQuestionId = db.nextQuestionId ∧
    (copy_bundle db dst now b m).1.questions = db.questions ∧
    (copy_bundle db dst now b m).1.options = db.options ∧
    (copy_bundle db dst now b m).1.question_attachments = db.question_attachments ∧
    ((copy_bundle db dst now b m).2.2).lookup b = some (copy_bundle db dst now b m).2.1 ∧
    (copy_bundle db dst now b m).2.1 < (copy_bundle db dst now b m).1.nextBundleId ∧
    (∀ k v, m.lookup k = some v →
      ((copy_bundle db dst now b m).2.2).lookup k = some v) ∧
    ∃ madd, (copy_bundle db dst now b m).2.2 = m ++ madd ∧
      (copy_bundle db dst now b m).1.media_bundles =
        db.media_bundles ++ madd.map (fun p => (⟨p.2, dst, now⟩ : BundleRow)) ∧
      (∀ p ∈ madd, db.nextBundleId ≤ p.2 ∧ p.1 = b) := by
  cases hlk : m.lookup b with
  | some nb =>
    have hcb : copy_bundle db dst now b m = (db, nb, m) := by
      unfold copy_bundle
      rw [hlk]
    rw [hcb]
    exact ⟨Grows.refl db, inv, rfl, rfl, rfl, rfl, hlk,
      inv.m_lt (b, nb) (mem_of_lookup_eq_some hlk), fun k v h => h,
      [], (List.append_nil m).symm, (List.append_nil _).symm,
      fun p hp => absurd hp (List.not_mem_nil p)⟩
  | none =>
    have hcb : copy_bundle db dst now b m =
        ({ db with
            media_bundles := db.media_bundles ++ [⟨db.nextBundleId, dst, now⟩],
            media_bundle_attachments := db.media_bundle_attachments ++
              (get_bundle_atts db b).map
                (fun a => { a with bundle_id := db.nextBundleId }),
            nextBundleId := db.nextBundleId + 1 },
          db.nextBundleId, m ++ [(b, db.nextBundleId)]) := by
      unfold copy_bundle
      rw [hlk]
    rw [hcb]
    have hg : Grows db
        { db with
          media_bundles := db.media_bundles ++ [⟨db.nextBundleId, dst, now⟩],
          media_bundle_attachments := db.media_bundle_attachments ++
            (get_bundle_atts db b).map
              (fun a => { a with bundle_id := db.nextBundleId }),
          nextBundleId := db.nextBundleId + 1 } := by
      refine ⟨rfl, rfl, rfl, rfl, rfl, rfl, rfl, Nat.le_refl _, Nat.le_succ _,
        ⟨[], (List.append_nil _).symm, ?_⟩, ⟨[], (List.append_nil _).symm, ?_⟩,
        ⟨[], (List.append_nil _).symm, ?_⟩,
        ⟨(get_bundle_atts db b).map
          (fun a => { a with bundle_id := db.nextBundleId }), rfl, ?_⟩⟩
      · intro x hx; exact absurd hx (List.not_mem_nil x)
      · intro x hx; exact absurd hx (List.not_mem_nil x)
      · intro x hx; exact absurd hx (List.not_mem_nil x)
      · intro x hx
        obtain ⟨a, _, rfl⟩ := List.mem_map.mp hx
        exact ⟨Nat.le_refl _, Nat.lt_succ_self _⟩
    have hnewb : get_bundle_atts
        { db with
          media_bundles := db.media_bundles ++ [⟨db.nextBundleId, dst, now⟩],
          media_bundle_attachments := db.media_bundle_attachments ++
            (get_bundle_atts db b).map
              (fun a => { a with bundle_id := db.nextBundleId }),
          nextBundleId := db.nextBundleId + 1 } db.nextBundleId
        = (get_bundle_atts db b).map
            (fun a => { a with bundle_id := db.nextBundleId }) := by
      show (db.media_bundle_attachments ++ (get_bundle_atts db b).map
          (fun (a : BAttRow) => { a with bundle_id := db.nextBundleId })).filter
            (fun a => a.bundle_id == db.nextBundleId)
        = (get_bundle_atts db b).map
            (fun (a : BAttRow) => { a with bundle_id := db.nextBundleId })
      rw [List.filter_append, batts_filter_old_nil (Nat.le_refl _) inv.batt_lt,
        batts_filter_map_self, List.nil_append]
    refine ⟨hg, ?_, rfl, rfl, rfl, rfl, ?_, Nat.lt_succ_self _,
      fun k v h => lookup_append_left _ h,
      [(b, db.nextBundleId)], rfl, rfl, ?_⟩
    · refine ⟨inv.opt_lt, inv.att_lt, ?_, inv.q_lt, inv.qsort, ?_, ?_, ?_, ?_⟩
      · intro a ha
        rcases List.mem_append.mp ha with h | h
        · exact Nat.lt_succ_of_lt (inv.batt_lt a h)
        · obtain ⟨a', _, rfl⟩ := List.mem_map.mp h
          exact Nat.lt_succ_self _
      · intro p hp
        rcases List.mem_append.mp hp with h | h
        · exact Nat.lt_succ_of_lt (inv.m_lt p h)
        · rw [List.mem_singleton] at h
          subst h
          exact Nat.lt_succ_self _
      · intro p hp
        rcases List.mem_append.mp hp with h | h
        · exact Nat.lt_succ_of_lt (inv.m_keys_lt p h)
        · rw [List.mem_singleton] at h
          subst h
          exact Nat.lt_succ_of_lt hb
      · rw [List.map_append]
        rw [List.nodup_append]
        refine ⟨inv.m_nodup, by simp, ?_⟩
        intro a ha ha'
        simp only [List.map_cons, List.map_nil, List.mem_singleton] at ha'
        subst ha'
        exact not_mem_keys_of_lookup_none hlk ha
      · intro p hp
        rcases List.mem_append.mp hp with h | h
        · exact ClonedB_transport hg (inv.m_keys_lt p h) (inv.m_lt p h)
            (inv.m_cloned p h)
        · rw [List.mem_singleton] at h
          subst h
          unfold ClonedB
          rw [hnewb, hg.batts_stable hb]
    · rw [lookup_append_of_none _ hlk]
      simp [List.lookup]
    · intro p hp
      rw [List.mem_singleton] at hp
      subst hp
      exact ⟨Nat.le_refl _, rfl⟩

/-- Behaviour of `_copy_question_to_quiz`: one deep-copied question appended,
its bundle resolved through the memo (cloning it on first reference). -/
lemma copy_question_spec (db : DB) (qrow : QuestionRow) (dst now : Nat)
    (m : List (Nat × Nat))
    (hq : qrow.id < db.nextQuestionId)
    (hqb : ∀ b ∈ qrow.media_bundle_id, b < db.nextBundleId)
    (inv : MergeInv db m) :
    Grows db (copy_question_to_quiz db qrow dst now m).1 ∧
    MergeInv (copy_question_to_quiz db qrow dst now m).1
      (copy_question_to_quiz db qrow dst now m).2.2 ∧
    (∀ k v, m.lookup k = some v →
      ((copy_question_to_quiz db qrow dst now m).2.2).lookup k = some v) ∧
    ∃ madd nq,
      (copy_question_to_quiz db qrow dst now m).2.2 = m ++ madd ∧
      (copy_question_to_quiz db qrow dst now m).1.media_bundles =
        db.media_bundles ++ madd.map (fun p => (⟨p.2, dst, now⟩ : BundleRow)) ∧
      (∀ p ∈ madd, db.nextBundleId ≤ p.2 ∧ p.1 ∈ qrow.media_bundle_id) ∧
      (copy_question_to_quiz db qrow dst now m).1.questions = db.questions ++ [nq] ∧
      nq.quiz_id = dst ∧
      nq.id < (copy_question_to_quiz db qrow dst now m).1.nextQuestionId ∧
      CopiedQ db (copy_question_to_quiz db qrow dst now m).1 dst now
        ((copy_question_to_quiz db qrow dst now m).2.2) qrow nq := by
  cases hmb : qrow.media_bundle_id with
  | none =>
    have hcq : copy_question_to_quiz db qrow dst now m =
        ({ db with
            questions := db.questions ++
              [⟨db.nextQuestionId, dst, qrow.text, now, none⟩],
            options := db.options ++ (options_for_question db qrow.id).map
              (fun o => { o with question_id := db.nextQuestionId }),
            question_attachments := db.question_attachments ++
              (get_question_atts db qrow.id).map
                (fun a => { a with question_id := db.nextQuestionId }),
            nextQuestionId := db.nextQuestionId + 1 },
          db.nextQuestionId, m) := by
      unfold copy_question_to_quiz
      rw [hmb]
    rw [hcq]
    obtain ⟨hg, hinv, hmb2, hqs, hcp⟩ :=
      question_insert_spec db qrow dst now none m _ rfl inv (by rw [hmb])
    refine ⟨hg, hinv, fun k v h => h,
      [], ⟨db.nextQuestionId, dst, qrow.text, now, none⟩,
      (List.append_nil m).symm, hmb2.trans (List.append_nil _).symm,
      fun p hp => absurd hp (List.not_mem_nil p), hqs, rfl, Nat.lt_succ_self _, hcp⟩
  | some b =>
    have hblt : b < db.nextBundleId := hqb b (Option.mem_def.mpr hmb)
    obtain ⟨g1, inv1, hnq1, hqs1, hop1, hat1, hlkb, hnb_lt, hstab1,
      madd1, hm1eq, hb1eq, hmadd1b⟩ := copy_bundle_spec db dst now b m hblt inv
    have hcq : copy_question_to_quiz db qrow dst now m =
        ({ (copy_bundle db dst now b m).1 with
            questions := (copy_bundle db dst now b m).1.questions ++
              [⟨(copy_bundle db dst now b m).1.nextQuestionId, dst, qrow.text, now,
                some (copy_bundle db dst now b m).2.1⟩],
            options := (copy_bundle db dst now b m).1.options ++
              (options_for_question (copy_bundle db dst now b m).1 qrow.id).map
                (fun o => { o with
                  question_id := (copy_bundle db dst now b m).1.nextQuestionId }),
            question_attachments :=
              (copy_bundle db dst now b m).1.question_attachments ++
              (get_question_atts (copy_bundle db dst now b m).1 qrow.id).map
                (fun a => { a with
                  question_id := (copy_bundle db dst now b m).1.nextQuestionId }),
            nextQuestionId := (copy_bundle db dst now b m).1.nextQuestionId + 1 },
          (copy_bundle db dst now b m).1.nextQuestionId,
          (copy_bundle db dst now b m).2.2) := by
      unfold copy_question_to_quiz
      rw [hmb]
    rw [hcq]
    have hlink2 : match qrow.media_bundle_id with
        | none => (some (copy_bundle db dst now b m).2.1 : Option Nat) = none
        | some bb => ∃ nb, ((copy_bundle db dst now b m).2.2).lookup bb = some nb ∧
            (some (copy_bundle db dst now b m).2.1 : Option Nat) = some nb := by
      simp only [hmb]
      exact ⟨(copy_bundle db dst now b m).2.1, hlkb, rfl⟩
    obtain ⟨hg2, hinv2, hmb2, hqs2, hcp2⟩ :=
      question_insert_spec (copy_bundle db dst now b m).1 qrow dst now
        (some (copy_bundle db dst now b m).2.1) (copy_bundle db dst now b m).2.2
        _ rfl inv1 hlink2
    have hoB : options_for_question db qrow.id
        = options_for_question (copy_bundle db dst now b m).1 qrow.id := by
      unfold options_for_question
      rw [hop1]
    have haB : get_question_atts db qrow.id
        = get_question_atts (copy_bundle db dst now b m).1 qrow.id := by
      unfold get_question_atts
      rw [hat1]
    refine ⟨g1.trans hg2, hinv2, fun k v h => hstab1 k v h,
      madd1, ⟨(copy_bundle db dst now b m).1.nextQuestionId, dst, qrow.text, now,
        some (copy_bundle db dst now b m).2.1⟩,
      hm1eq, hmb2.trans hb1eq, ?_, hqs2.trans (by rw [hqs1]), rfl,
      Nat.lt_succ_self _, ?_⟩
    · intro p hp
      refine ⟨(hmadd1b p hp).1, ?_⟩
      have hpb : p.1 = b := (hmadd1b p hp).2
      rw [hpb]
      exact rfl
    · exact CopiedQ_congr hcp2 hoB haB rfl rfl (fun k v h => h)

end KingBot

namespace KingBot

/-- Folding `_copy_question_to_quiz` over a question list: one deep-copied
question appended per source question (in list order), the memo only ever
extended, and every new memo entry cloning a bundle actually referenced by
one of the copied questions. -/
lemma copyQuestionList_spec (dst now : Nat) :
    ∀ (qs : List QuestionRow) (db : DB) (m : List (Nat × Nat)),
      (∀ q ∈ qs, q.id < db.nextQuestionId) →
      (∀ q ∈ qs, ∀ b ∈ q.media_bundle_id, b < db.nextBundleId) →
      MergeInv db m →
      Grows db (copyQuestionList dst now db qs m).1 ∧
      MergeInv (copyQuestionList dst now db qs m).1 (copyQuestionList dst now db qs m).2 ∧
      (∀ k v, m.lookup k = some v →
        ((copyQuestionList dst now db qs m).2).lookup k = some v) ∧
      ∃ madd newQs,
        (copyQuestionList dst now db qs m).2 = m ++ madd ∧
        (copyQuestionList dst now db qs m).1.media_bundles =
          db.media_bundles ++ madd.map (fun p => (⟨p.2, dst, now⟩ : BundleRow)) ∧
        (∀ p ∈ madd, db.nextBundleId ≤ p.2 ∧
          p.1 ∈ qs.filterMap (fun q => q.media_bundle_id)) ∧
        (copyQuestionList dst now db qs m).1.questions = db.questions ++ newQs ∧
        (∀ x ∈ newQs, x.quiz_id = dst ∧
          x.id < (copyQuestionList dst now db qs m).1.nextQuestionId) ∧
        List.Forall₂ (CopiedQ db (copyQuestionList dst now db qs m).1 dst now
          ((copyQuestionList dst now db qs m).2)) qs newQs := by
  intro qs
  induction qs with
  | nil =>
    intro db m hq hb inv
    have hc : copyQuestionList dst now db [] m = (db, m) := rfl
    rw [hc]
    exact ⟨Grows.refl db, inv, fun k v h => h, [], [],
      (List.append_nil m).symm, (List.append_nil _).symm,
      fun p hp => absurd hp (List.not_mem_nil p),
      (List.append_nil _).symm,
      fun x hx => absurd hx (List.not_mem_nil x), List.Forall₂.nil⟩
  | cons q rest ih =>
    intro db m hq hb inv
    have hc : copyQuestionList dst now db (q :: rest) m =
        copyQuestionList dst now (copy_question_to_quiz db q dst now m).1 rest
          (copy_question_to_quiz db q dst now m).2.2 := rfl
    rw [hc]
    obtain ⟨g1, inv1, hstab1, madd1, nq1, hm1, hb1, hbd1, hqs1, hq1quiz, hq1id, hcp1⟩ :=
      copy_question_spec db q dst now m (hq q (List.mem_cons_self q rest))
        (hb q (List.mem_cons_self q rest)) inv
    have hq2 : ∀ x ∈ rest, x.id < (copy_question_to_quiz db q dst now m).1.nextQuestionId :=
      fun x hx => Nat.lt_of_lt_of_le (hq x (List.mem_cons_of_mem q hx)) g1.nq_le
    have hb2 : ∀ x ∈ rest, ∀ bb ∈ x.media_bundle_id,
        bb < (copy_question_to_quiz db q dst now m).1.nextBundleId :=
      fun x hx bb hbb =>
        Nat.lt_of_lt_of_le (hb x (List.mem_cons_of_mem q hx) bb hbb) g1.nb_le
    obtain ⟨g2, inv2, hstab2, madd2, newQs2, hm2, hbnd2, hbd2, hqs2, hquiz2, hcp2⟩ :=
      ih (copy_question_to_quiz db q dst now m).1
        (copy_question_to_quiz db q dst now m).2.2 hq2 hb2 inv1
    refine ⟨g1.trans g2, inv2, fun k v h => hstab2 k v (hstab1 k v h),
      madd1 ++ madd2, nq1 :: newQs2, ?_, ?_, ?_, ?_, ?_, ?_⟩
    · rw [hm2, hm1, List.append_assoc]
    · rw [hbnd2, hb1, List.map_append, List.append_assoc]
    · intro p hp
      rcases List.mem_append.mp hp with h | h
      · refine ⟨(hbd1 p h).1, ?_⟩
        exact List.mem_filterMap.mpr ⟨q, List.mem_cons_self q rest, (hbd1 p h).2⟩
      · refine ⟨Nat.le_trans g1.nb_le (hbd2 p h).1, ?_⟩
        obtain ⟨a, ha, hfa⟩ := List.mem_filterMap.mp (hbd2 p h).2
        exact List.mem_filterMap.mpr ⟨a, List.mem_cons_of_mem q ha, hfa⟩
    · rw [hqs2, hqs1, List.append_assoc, List.singleton_append]
    · intro x hx
      rcases List.mem_cons.mp hx with h | h
      · subst h
        exact ⟨hq1quiz, Nat.lt_of_lt_of_le hq1id g2.nq_le⟩
      · exact hquiz2 x h
    · refine List.Forall₂.cons ?_ ?_
      · refine CopiedQ_congr hcp1 rfl rfl (g2.opts_stable hq1id)
          (g2.atts_stable hq1id) hstab2
      · refine forall₂_imp_mem hcp2 ?_
        intro a ha b hb' hr
        exact CopiedQ_congr hr
          (g1.opts_stable (hq a (List.mem_cons_of_mem q ha))).symm
          (g1.atts_stable (hq a (List.mem_cons_of_mem q ha))).symm
          rfl rfl (fun k v h => h)

end KingBot

namespace KingBot

/-- Master specification of `merge_quizzes_create_new` on a well-formed
store whose two quiz lookups succeed. -/
lemma merge_spec (db : DB) (now src_id dst_id : Nat)
    (hwf : MergeWF db) (srcq dstq : QuizRow)
    (hsrc : findQuiz db src_id = some srcq)
    (hdst : findQuiz db dst_id = some dstq) :
    ∃ dbF m', merge_quizzes_create_new db now src_id dst_id = some (dbF, db.nextQuizId) ∧
      MergeFacts db dbF now src_id dst_id srcq dstq m' := by
  obtain ⟨hW1, hW2, hW3, hW4, hW5, hW6, hW7, hW8, hW9, hW10⟩ := hwf
  have hsrcid : srcq.id = src_id := by
    have := List.find?_some hsrc
    rwa [beq_iff_eq] at this
  have hdstid : dstq.id = dst_id := by
    have := List.find?_some hdst
    rwa [beq_iff_eq] at this
  have hsrclt : src_id < db.nextQuizId :=
    hsrcid ▸ hW1 srcq (List.mem_of_find?_eq_some hsrc)
  have hdstlt : dst_id < db.nextQuizId :=
    hdstid ▸ hW1 dstq (List.mem_of_find?_eq_some hdst)
  set db0 : DB := { db with
    quizzes := db.quizzes ++
      [⟨db.nextQuizId, "دمج: " ++ srcq.title ++ " + " ++ dstq.title, OWNER_ID, now, false⟩],
    nextQuizId := db.nextQuizId + 1 } with hdb0
  have hm : merge_quizzes_create_new db now src_id dst_id =
      some ((copyQuestionList db.nextQuizId now
          (copyQuestionList db.nextQuizId now db0 (questionsOfQuiz db0 src_id) []).1
          (questionsOfQuiz (copyQuestionList db.nextQuizId now db0
            (questionsOfQuiz db0 src_id) []).1 dst_id)
          (copyQuestionList db.nextQuizId now db0 (questionsOfQuiz db0 src_id) []).2).1,
        db.nextQuizId) := by
    unfold merge_quizzes_create_new
    rw [hsrc, hdst, hdb0]
  have inv0 : MergeInv db0 [] :=
    ⟨hW6, hW7, hW10, hW2, hW4,
      fun p hp => absurd hp (List.not_mem_nil p),
      fun p hp => absurd hp (List.not_mem_nil p),
      List.nodup_nil,
      fun p hp => absurd hp (List.not_mem_nil p)⟩
  have hq1b : ∀ q ∈ questionsOfQuiz db0 src_id, q.id < db0.nextQuestionId :=
    fun q hq => hW2 q (List.mem_filter.mp hq).1
  have hb1b : ∀ q ∈ questionsOfQuiz db0 src_id, ∀ b ∈ q.media_bundle_id,
      b < db0.nextBundleId :=
    fun q hq => hW5 q (List.mem_filter.mp hq).1
  obtain ⟨g1, inv1, hstab1, madd1, newQs1, hm1, hbl1, hbd1, hqs1, hqq1, hf1⟩ :=
    copyQuestionList_spec db.nextQuizId now (questionsOfQuiz db0 src_id) db0 [] hq1b hb1b inv0
  set R1 : DB × List (Nat × Nat) :=
    copyQuestionList db.nextQuizId now db0 (questionsOfQuiz db0 src_id) [] with hR1
  rw [List.nil_append] at hm1
  have hqdst : questionsOfQuiz R1.1 dst_id = questionsOfQuiz db dst_id := by
    unfold questionsOfQuiz
    rw [hqs1]
    have hnil : newQs1.filter (fun q => q.quiz_id == dst_id) = [] :=
      List.filter_eq_nil_iff.mpr (fun x hx => by
        simp only [beq_iff_eq]
        rw [(hqq1 x hx).1]
        omega)
    rw [List.filter_append, hnil, List.append_nil]
  have hq2b : ∀ q ∈ questionsOfQuiz R1.1 dst_id, q.id < R1.1.nextQuestionId :=
    fun q hq => inv1.q_lt q (List.mem_filter.mp hq).1
  have hb2b : ∀ q ∈ questionsOfQuiz R1.1 dst_id, ∀ b ∈ q.media_bundle_id,
      b < R1.1.nextBundleId := by
    intro q hq b hb
    rw [hqdst] at hq
    exact Nat.lt_of_lt_of_le (hW5 q (List.mem_filter.mp hq).1 b hb) g1.nb_le
  obtain ⟨g2, inv2, hstab2, madd2, newQs2, hm2, hbl2, hbd2, hqs2, hqq2, hf2⟩ :=
    copyQuestionList_spec db.nextQuizId now (questionsOfQuiz R1.1 dst_id) R1.1 R1.2
      hq2b hb2b inv1
  set R2 : DB × List (Nat × Nat) :=
    copyQuestionList db.nextQuizId now R1.1 (questionsOfQuiz R1.1 dst_id) R1.2 with hR2
  have gF : Grows db0 R2.1 := g1.trans g2
  have hmF : R2.2 = madd1 ++ madd2 := by rw [hm2, hm1]
  have hQF : R2.1.questions = db.questions ++ (newQs1 ++ newQs2) := by
    have h1 : R2.1.questions = db0.questions ++ (newQs1 ++ newQs2) := by
      rw [hqs2, hqs1, List.append_assoc]
    exact h1
  have hBF : R2.1.media_bundles = db.media_bundles ++
      R2.2.map (fun p => (⟨p.2, db.nextQuizId, now⟩ : BundleRow)) := by
    have h1 : R2.1.media_bundles = db0.media_bundles ++
        R2.2.map (fun p => (⟨p.2, db.nextQuizId, now⟩ : BundleRow)) := by
      rw [hmF, List.map_append, hbl2, hbl1, List.append_assoc]
    exact h1
  have hmemo : ∀ p ∈ R2.2,
      p.1 ∈ (questionsOfQuiz db src_id ++ questionsOfQuiz db dst_id).filterMap
        (fun q => q.media_bundle_id) ∧ db.nextBundleId ≤ p.2 := by
    intro p hp
    rw [hmF] at hp
    rcases List.mem_append.mp hp with h | h
    · refine ⟨?_, (hbd1 p h).1⟩
      rw [List.filterMap_append]
      exact List.mem_append_left _ (hbd1 p h).2
    · have hk := (hbd2 p h).2
      rw [hqdst] at hk
      refine ⟨?_, Nat.le_trans g1.nb_le (hbd2 p h).1⟩
      rw [List.filterMap_append]
      exact List.mem_append_right _ hk
  refine ⟨R2.1, R2.2, hm, ?_, gF.responses_eq, gF.names_eq, gF.progress_eq, gF.sent_eq,
    ⟨newQs1 ++ newQs2, hQF, ?_⟩, ?_, ?_, hBF, ?_, ?_, inv2.m_nodup, ?_, ?_, ?_, ?_, ?_, ?_, ?_⟩
  · exact gF.quizzes_eq
  · intro x hx
    rcases List.mem_append.mp hx with h | h
    · exact (hqq1 x h).1
    · exact (hqq2 x h).1
  · obtain ⟨l, he, hb⟩ := gF.options_ext
    exact ⟨l, he, fun x hx => (hb x hx).1⟩
  · obtain ⟨l, he, hb⟩ := gF.atts_ext
    exact ⟨l, he, fun x hx => (hb x hx).1⟩
  · obtain ⟨l, he, hb⟩ := gF.batts_ext
    exact ⟨l, he, fun x hx => (hb x hx).1⟩
  · -- the new quiz's question list
    refine ⟨newQs1, newQs2, ?_, ?_, ?_⟩
    · unfold questionsOfQuiz
      rw [hQF, List.filter_append]
      have h0 : db.questions.filter (fun q => q.quiz_id == db.nextQuizId) = [] :=
        List.filter_eq_nil_iff.mpr (fun x hx => by
          simp only [beq_iff_eq]
          have := hW3 x hx
          omega)
      rw [h0, List.nil_append]
      exact List.filter_eq_self.mpr (fun x hx => by
        rcases List.mem_append.mp hx with h | h
        · rw [(hqq1 x h).1]; exact beq_self_eq_true _
        · rw [(hqq2 x h).1]; exact beq_self_eq_true _)
    · exact forall₂_imp_mem hf1 (fun a ha b hb hr =>
        CopiedQ_congr hr rfl rfl (g2.opts_stable (hqq1 b hb).2)
          (g2.atts_stable (hqq1 b hb).2) hstab2)
    · rw [hqdst] at hf2
      exact forall₂_imp_mem hf2 (fun a ha b hb hr =>
        CopiedQ_congr hr
          (g1.opts_stable (hW2 a (List.mem_filter.mp ha).1)).symm
          (g1.atts_stable (hW2 a (List.mem_filter.mp ha).1)).symm
          rfl rfl (fun k v h => h))
  · -- memo entries clone referenced bundles
    intro p hp
    refine ⟨(hmemo p hp).1, (hmemo p hp).2, ?_⟩
    obtain ⟨q, hq, hfq⟩ := List.mem_filterMap.mp (hmemo p hp).1
    have hqmem : q ∈ db.questions := by
      rcases List.mem_append.mp hq with h | h
      · exact (List.mem_filter.mp h).1
      · exact (List.mem_filter.mp h).1
    have hp1lt : p.1 < db.nextBundleId := hW5 q hqmem p.1 hfq
    have hc := inv2.m_cloned p hp
    have hstb : get_bundle_atts R2.1 p.1 = get_bundle_atts db p.1 :=
      gF.batts_stable hp1lt
    unfold ClonedB at hc ⊢
    rw [← hstb]
    exact hc
  · -- new quiz's bundle rows are exactly the memo clones
    unfold bundlesOfQuiz
    rw [hBF, List.filter_append]
    have h0 : db.media_bundles.filter (fun b => b.quiz_id == db.nextQuizId) = [] :=
      List.filter_eq_nil_iff.mpr (fun x hx => by
        simp only [beq_iff_eq]
        have := hW8 x hx
        omega)
    rw [h0, List.nil_append]
    exact List.filter_eq_self.mpr (fun x hx => by
      obtain ⟨pp, _, rfl⟩ := List.mem_map.mp hx
      exact beq_self_eq_true _)
  · exact fun k hk => gF.opts_stable hk
  · exact fun k hk => gF.atts_stable hk
  · exact fun k hk => gF.batts_stable hk
  · -- questions of every other quiz unchanged
    intro z hz
    unfold questionsOfQuiz
    rw [hQF, List.filter_append]
    have h0 : (newQs1 ++ newQs2).filter (fun q => q.quiz_id == z) = [] :=
      List.filter_eq_nil_iff.mpr (fun x hx => by
        simp only [beq_iff_eq]
        rcases List.mem_append.mp hx with h | h
        · rw [(hqq1 x h).1]; exact fun he => hz he.symm
        · rw [(hqq2 x h).1]; exact fun he => hz he.symm)
    rw [h0, List.append_nil]
  · -- bundles of every other quiz unchanged
    intro z hz
    unfold bundlesOfQuiz
    rw [hBF, List.filter_append]
    have h0 : (R2.2.map (fun p => (⟨p.2, db.nextQuizId, now⟩ : BundleRow))).filter
        (fun b => b.quiz_id == z) = [] :=
      List.filter_eq_nil_iff.mpr (fun x hx => by
        obtain ⟨pp, _, rfl⟩ := List.mem_map.mp hx
        simp only [beq_iff_eq]
        exact fun he => hz he.symm)
    rw [h0, List.append_nil]

end KingBot

namespace KingBot

/-- C5: for every merge(src, dst) with src ≠ dst (both quizzes present, store
well-formed), a new quiz is created whose question list is positional deep
copies of all of src's questions (ascending original id) followed by all of
dst's questions (ascending original id); each copy preserves text, options
and own attachments verbatim with created_at stamped at merge time
(`CopiedQ`); and each referenced original bundle is cloned exactly once —
the memo keys are distinct referenced bundles, the new quiz's bundle rows
are exactly the memo's clones, and every copied question resolves its
bundle through that shared memo. -/
theorem C5_merge_deep_copy (db : DB) (now src_id dst_id : Nat)
    (srcq dstq : QuizRow)
    (hne : src_id ≠ dst_id)
    (hsrc : findQuiz db src_id = some srcq)
    (hdst : findQuiz db dst_id = some dstq)
    (hwf : MergeWF db) :
    ∃ dbF newId m',
      merge_do db now src_id dst_id = (dbF, some newId) ∧
      (⟨newId, "دمج: " ++ srcq.title ++ " + " ++ dstq.title, OWNER_ID, now, false⟩ : QuizRow)
        ∈ dbF.quizzes ∧
      (questionsOfQuiz db src_id).Pairwise (fun a b => a.id < b.id) ∧
      (questionsOfQuiz db dst_id).Pairwise (fun a b => a.id < b.id) ∧
      (∃ newSrcQs newDstQs,
        questionsOfQuiz dbF newId = newSrcQs ++ newDstQs ∧
        List.Forall₂ (CopiedQ db dbF newId now m') (questionsOfQuiz db src_id) newSrcQs ∧
        List.Forall₂ (CopiedQ db dbF newId now m') (questionsOfQuiz db dst_id) newDstQs) ∧
      (m'.map Prod.fst).Nodup ∧
      (∀ p ∈ m',
        p.1 ∈ (questionsOfQuiz db src_id ++ questionsOfQuiz db dst_id).filterMap
          (fun q => q.media_bundle_id) ∧ ClonedB db dbF p.1 p.2) ∧
      bundlesOfQuiz dbF newId = m'.map (fun p => (⟨p.2, newId, now⟩ : BundleRow)) := by
  obtain ⟨dbF, m', hm, hf⟩ := merge_spec db now src_id dst_id hwf srcq dstq hsrc hdst
  have hdo : merge_do db now src_id dst_id = (dbF, some db.nextQuizId) := by
    unfold merge_do
    rw [if_neg hne, hm]
  refine ⟨dbF, db.nextQuizId, m', hdo, ?_, ?_, ?_, hf.new_questions, hf.memo_nodup,
    fun p hp => ⟨(hf.memo_spec p hp).1, (hf.memo_spec p hp).2.2⟩, hf.new_bundles⟩
  · rw [hf.quizzes_eq]
    exact List.mem_append_right _ (List.mem_singleton.mpr rfl)
  · exact List.Pairwise.sublist (List.filter_sublist _) hwf.2.2.2.1
  · exact List.Pairwise.sublist (List.filter_sublist _) hwf.2.2.2.1

/-- Witness for C5 at the concrete two-quiz store `dbMerge`. -/
theorem C5_merge_deep_copy_witness :
    ((1 : Nat) ≠ 2 ∧ findQuiz dbMerge 1 = some ⟨1, "A", 0, 0, false⟩ ∧
      findQuiz dbMerge 2 = some ⟨2, "B", 0, 0, false⟩ ∧ MergeWF dbMerge) ∧
    ∃ dbF newId m',
      merge_do dbMerge 0 1 2 = (dbF, some newId) ∧
      (⟨newId, "دمج: " ++ "A" ++ " + " ++ "B", OWNER_ID, 0, false⟩ : QuizRow)
        ∈ dbF.quizzes ∧
      (questionsOfQuiz dbMerge 1).Pairwise (fun a b => a.id < b.id) ∧
      (questionsOfQuiz dbMerge 2).Pairwise (fun a b => a.id < b.id) ∧
      (∃ newSrcQs newDstQs,
        questionsOfQuiz dbF newId = newSrcQs ++ newDstQs ∧
        List.Forall₂ (CopiedQ dbMerge dbF newId 0 m') (questionsOfQuiz dbMerge 1) newSrcQs ∧
        List.Forall₂ (CopiedQ dbMerge dbF newId 0 m') (questionsOfQuiz dbMerge 2) newDstQs) ∧
      (m'.map Prod.fst).Nodup ∧
      (∀ p ∈ m',
        p.1 ∈ (questionsOfQuiz dbMerge 1 ++ questionsOfQuiz dbMerge 2).filterMap
          (fun q => q.media_bundle_id) ∧ ClonedB dbMerge dbF p.1 p.2) ∧
      bundlesOfQuiz dbF newId = m'.map (fun p => (⟨p.2, newId, 0⟩ : BundleRow)) :=
  ⟨⟨by decide, rfl, rfl, by unfold MergeWF; decide⟩,
    C5_merge_deep_copy dbMerge 0 1 2 ⟨1, "A", 0, 0, false⟩ ⟨2, "B", 0, 0, false⟩
      (by decide) rfl rfl (by unfold MergeWF; decide)⟩

/-- C10: for every merge(src, dst) with src ≠ dst (both quizzes present,
store well-formed), the merge is insert-only: every table equals its old
value with rows for the new quiz appended (old quiz, question, option,
attachment, bundle and bundle-attachment rows are neither updated nor
deleted), and every per-quiz / per-question / per-bundle read over src's
and dst's data returns exactly what it returned before the merge. -/
theorem C10_merge_frame (db : DB) (now src_id dst_id : Nat)
    (srcq dstq : QuizRow)
    (hne : src_id ≠ dst_id)
    (hsrc : findQuiz db src_id = some srcq)
    (hdst : findQuiz db dst_id = some dstq)
    (hwf : MergeWF db) :
    ∃ dbF newId,
      merge_do db now src_id dst_id = (dbF, some newId) ∧
      dbF.quizzes = db.quizzes ++
        [⟨newId, "دمج: " ++ srcq.title ++ " + " ++ dstq.title, OWNER_ID, now, false⟩] ∧
      (∃ qadd, dbF.questions = db.questions ++ qadd ∧ ∀ x ∈ qadd, x.quiz_id = newId) ∧
      (∃ oadd, dbF.options = db.options ++ oadd ∧
        ∀ x ∈ oadd, db.nextQuestionId ≤ x.question_id) ∧
      (∃ aadd, dbF.question_attachments = db.question_attachments ++ aadd ∧
        ∀ x ∈ aadd, db.nextQuestionId ≤ x.question_id) ∧
      (∃ badd, dbF.media_bundles = db.media_bundles ++ badd ∧
        ∀ x ∈ badd, x.quiz_id = newId) ∧
      (∃ tadd, dbF.media_bundle_attachments = db.media_bundle_attachments ++ tadd ∧
        ∀ x ∈ tadd, db.nextBundleId ≤ x.bundle_id) ∧
      dbF.responses = db.responses ∧
      dbF.participant_names = db.participant_names ∧
      dbF.user_progress = db.user_progress ∧
      dbF.sent_msgs = db.sent_msgs ∧
      questionsOfQuiz dbF src_id = questionsOfQuiz db src_id ∧
      questionsOfQuiz dbF dst_id = questionsOfQuiz db dst_id ∧
      bundlesOfQuiz dbF src_id = bundlesOfQuiz db src_id ∧
      bundlesOfQuiz dbF dst_id = bundlesOfQuiz db dst_id ∧
      (∀ q ∈ db.questions, options_for_question dbF q.id = options_for_question db q.id ∧
        get_question_atts dbF q.id = get_question_atts db q.id) ∧
      (∀ b ∈ db.media_bundles, get_bundle_atts dbF b.id = get_bundle_atts db b.id) := by
  obtain ⟨dbF, m', hm, hf⟩ := merge_spec db now src_id dst_id hwf srcq dstq hsrc hdst
  have hdo : merge_do db now src_id dst_id = (dbF, some db.nextQuizId) := by
    unfold merge_do
    rw [if_neg hne, hm]
  have hsrclt : src_id < db.nextQuizId := by
    have h1 := List.find?_some hsrc
    rw [beq_iff_eq] at h1
    exact h1 ▸ hwf.1 srcq (List.mem_of_find?_eq_some hsrc)
  have hdstlt : dst_id < db.nextQuizId := by
    have h1 := List.find?_some hdst
    rw [beq_iff_eq] at h1
    exact h1 ▸ hwf.1 dstq (List.mem_of_find?_eq_some hdst)
  refine ⟨dbF, db.nextQuizId, hdo, hf.quizzes_eq, hf.questions_ext, hf.options_ext,
    hf.atts_ext, ⟨m'.map (fun p => (⟨p.2, db.nextQuizId, now⟩ : BundleRow)),
      hf.bundles_eq, ?_⟩, hf.batts_ext,
    hf.responses_eq, hf.names_eq, hf.progress_eq, hf.sent_eq,
    hf.other_questions src_id (by omega), hf.other_questions dst_id (by omega),
    hf.other_bundles src_id (by omega), hf.other_bundles dst_id (by omega),
    fun q hq => ⟨hf.opts_stable q.id (hwf.2.1 q hq), hf.qatts_stable q.id (hwf.2.1 q hq)⟩,
    fun b hb => hf.batts_stable b.id (hwf.2.2.2.2.2.2.2.2.1 b hb)⟩
  intro x hx
  obtain ⟨pp, _, rfl⟩ := List.mem_map.mp hx
  rfl

/-- Witness for C10 at the concrete two-quiz store `dbMerge`. -/
theorem C10_merge_frame_witness :
    ((1 : Nat) ≠ 2 ∧ findQuiz dbMerge 1 = some ⟨1, "A", 0, 0, false⟩ ∧
      findQuiz dbMerge 2 = some ⟨2, "B", 0, 0, false⟩ ∧ MergeWF dbMerge) ∧
    ∃ dbF newId,
      merge_do dbMerge 0 1 2 = (dbF, some newId) ∧
      dbF.quizzes = dbMerge.quizzes ++
        [⟨newId, "دمج: " ++ "A" ++ " + " ++ "B", OWNER_ID, 0, false⟩] ∧
      (∃ qadd, dbF.questions = dbMerge.questions ++ qadd ∧ ∀ x ∈ qadd, x.quiz_id = newId) ∧
      (∃ oadd, dbF.options = dbMerge.options ++ oadd ∧
        ∀ x ∈ oadd, dbMerge.nextQuestionId ≤ x.question_id) ∧
      (∃ aadd, dbF.question_attachments = dbMerge.question_attachments ++ aadd ∧
        ∀ x ∈ aadd, dbMerge.nextQuestionId ≤ x.question_id) ∧
      (∃ badd, dbF.media_bundles = dbMerge.media_bundles ++ badd ∧
        ∀ x ∈ badd, x.quiz_id = newId) ∧
      (∃ tadd, dbF.media_bundle_attachments = dbMerge.media_bundle_attachments ++ tadd ∧
        ∀ x ∈ tadd, dbMerge.nextBundleId ≤ x.bundle_id) ∧
      dbF.responses = dbMerge.responses ∧
      dbF.participant_names = dbMerge.participant_names ∧
      dbF.user_progress = dbMerge.user_progress ∧
      dbF.sent_msgs = dbMerge.sent_msgs ∧
      questionsOfQuiz dbF 1 = questionsOfQuiz dbMerge 1 ∧
      questionsOfQuiz dbF 2 = questionsOfQuiz dbMerge 2 ∧
      bundlesOfQuiz dbF 1 = bundlesOfQuiz dbMerge 1 ∧
      bundlesOfQuiz dbF 2 = bundlesOfQuiz dbMerge 2 ∧
      (∀ q ∈ dbMerge.questions,
        options_for_question dbF q.id = options_for_question dbMerge q.id ∧
        get_question_atts dbF q.id = get_question_atts dbMerge q.id) ∧
      (∀ b ∈ dbMerge.media_bundles,
        get_bundle_atts dbF b.id = get_bundle_atts dbMerge b.id) :=
  ⟨⟨by decide, rfl, rfl, by unfold MergeWF; decide⟩,
    C10_merge_frame dbMerge 0 1 2 ⟨1, "A", 0, 0, false⟩ ⟨2, "B", 0, 0, false⟩
      (by decide) rfl rfl (by unfold MergeWF; decide)⟩

end KingBot
